import Mathlib

/-!
Shallow embedding of the deposit wallet pool and blockchain-deposit ingestion
pipeline of the repository (wallet-pool service, webhook controller, deposits
service, and the relevant parts of the Prisma schema).

Conventions of the embedding:
* The persistent store is a `DB` record of lists of rows; each Prisma call
  (`findFirst`, `findUnique`, `update`, `updateMany`, `create`) is embedded by
  the corresponding pure list operation, and a `prisma.$transaction([...])` is
  a single Lean function producing the combined state (all-or-nothing by
  construction, as in the source).
* Timestamps are naturals (milliseconds); monetary amounts are rationals.
* `parseFloat` on the payload amount is modelled by an `Option Rat` field:
  `none` stands for NaN (non-numeric input), `some q` for the parsed value.
* External collaborators (Tatum address derivation, address re-derivation via
  ethers/TronWeb, AES encryption, webhook subscription) enter as an explicit
  `ChainEnv` of abstract functions, mirroring the service boundary.
-/

attribute [local semireducible] Rat.add Rat.mul Rat.inv Rat.sub

inductive Network
  | BEP20
  | TRC20
  deriving DecidableEq

inductive DepStatus
  | PENDING
  | CONFIRMED
  | FAILED
  | CANCELLED
  deriving DecidableEq

inductive TxType
  | DEPOSIT
  | DEPOSIT_BONUS
  | REFERRAL_BONUS
  deriving DecidableEq

inductive TxStatus
  | PENDING
  | CONFIRMED
  deriving DecidableEq

/-- A row of the `User` table (the fields the deposit pipeline touches). -/
structure User where
  id : Nat
  username : String
  email : String
  balance : Rat
  totalDeposits : Rat
  totalTeamEarnings : Rat
  referredBy : Option Nat
  deriving DecidableEq

/-- A row of the `DepositWallet` table (migration `add_deposit_wallet_pool`). -/
structure DepositWallet where
  id : Nat
  address : String
  privateKey : String
  network : Network
  derivationIndex : Nat
  webhookId : Option String
  assignedToUserId : Option Nat
  assignedAt : Option Nat
  expiresAt : Option Nat
  isAvailable : Bool
  totalDeposits : Nat
  lastUsedAt : Option Nat
  deriving DecidableEq

/-- A row of the `Deposit` table. -/
structure Deposit where
  id : Nat
  userId : Nat
  amount : Rat
  network : Network
  depositAddress : String
  depositWalletId : Option Nat
  txHash : Option String
  currency : String
  status : DepStatus
  confirmedAt : Option Nat
  bonusAmount : Rat
  expiresAt : Option Nat
  deriving DecidableEq

/-- A row of the `Transaction` table. -/
structure Txn where
  userId : Nat
  type : TxType
  amount : Rat
  netAmount : Rat
  status : TxStatus
  reference : Option String
  description : String
  deriving DecidableEq

/-- Messages handed to the Notifier (email service); failures are swallowed by
the source, so only the attempted sends are recorded. -/
inductive EmailMsg
  | depositConfirmed (toAddr : String) (amount : Rat) (txId : String)
  | wrongCurrency (toAddr : String) (asset : String) (amount : Rat) (txId : String)
  deriving DecidableEq

/-- The persistent store plus the notification outbox. -/
structure DB where
  users : List User
  wallets : List DepositWallet
  deposits : List Deposit
  transactions : List Txn
  outbox : List EmailMsg
  deriving DecidableEq

/-- Process-wide configuration (ConfigService values with their defaults). -/
structure Config where
  depositBonusPercent : Rat
  referralDepositBonusPercent : Rat
  referralBonusPercent : Rat
  deriving DecidableEq

/-- An incoming Tatum webhook payload, after JSON decoding. `amountParsed`
models `parseFloat(payload.amount)`: `none` is NaN. -/
structure Payload where
  address : String
  txId : String
  amountParsed : Option Rat
  asset : String
  deriving DecidableEq

/-- The schema fact cited by the idempotency requirement: the migration
declares `CREATE INDEX "Deposit_txHash_idx" ON "Deposit"("txHash")` — a plain
index, not `CREATE UNIQUE INDEX`, so the storage layer enforces no uniqueness
on `txHash`. -/
def depositTxHashUniqueIndex : Bool := false

/-- Substring test, modelling JavaScript `String.prototype.includes`. -/
def strContains (s pat : String) : Bool :=
  decide (pat.toList <:+: s.toList)

/-- `s.toUpperCase()` as a character list (the asset strings are ASCII). -/
def upperChars (s : String) : List Char :=
  s.toList.map Char.toUpper

/-- `s.toLowerCase()` as a character list. -/
def lowerChars (s : String) : List Char :=
  s.toList.map Char.toLower

/-- Case-insensitive `includes`: `s.toUpperCase().includes(pat.toUpperCase())`. -/
def containsCI (s pat : String) : Bool :=
  decide (upperChars pat <:+: upperChars s)

def findUserById (i : Nat) (db : DB) : Option User :=
  db.users.find? (fun u => u.id == i)

def updateUser (i : Nat) (f : User → User) (db : DB) : DB :=
  { db with users := db.users.map (fun u => if u.id == i then f u else u) }

def findWalletById (i : Nat) (db : DB) : Option DepositWallet :=
  db.wallets.find? (fun w => w.id == i)

def updateWallet (i : Nat) (f : DepositWallet → DepositWallet) (db : DB) : DB :=
  { db with wallets := db.wallets.map (fun w => if w.id == i then f w else w) }

/-- `prisma.deposit.findFirst({ where: { txHash: txId } })` is some row. -/
def hasDepositTx (tx : String) (db : DB) : Bool :=
  db.deposits.any (fun d => d.txHash == some tx)

def freshDepositId (db : DB) : Nat :=
  db.deposits.foldl (fun m d => max m (d.id + 1)) 0

def freshWalletId (db : DB) : Nat :=
  db.wallets.foldl (fun m w => max m (w.id + 1)) 0

def apos : String := (Char.ofNat 39).toString

/-- Rendering of a numeric config value inside a template string. -/
def numStr (q : Rat) : String :=
  if q.den == 1 then toString q.num else toString q.num ++ ("/") ++ toString q.den

def networkName : Network → String
  | Network.BEP20 => "BEP20"
  | Network.TRC20 => "TRC20"

namespace WalletPoolService

/-- `WALLET_ASSIGNMENT_DURATION = 60 * 60 * 1000` (1 hour, in ms). -/
def WALLET_ASSIGNMENT_DURATION : Nat := 60 * 60 * 1000

/-- The predicate of `getOrAssignWallet`'s first query: an assignment of this
wallet to this user on this network whose `expiresAt` is strictly in the
future (`expiresAt: { gt: now }`; a null `expiresAt` never satisfies `gt`). -/
def isActiveLease (userId : Nat) (net : Network) (now : Nat) (w : DepositWallet) : Bool :=
  w.assignedToUserId == some userId && w.network == net &&
    (match w.expiresAt with
     | some t => decide (now < t)
     | none => false)

/-- `prisma.depositWallet.findFirst({ where: { assignedToUserId, network,
expiresAt: { gt: now } } })`. -/
def findExistingAssignment (userId : Nat) (net : Network) (now : Nat) (db : DB) :
    Option DepositWallet :=
  db.wallets.find? (isActiveLease userId net now)

/-- Strict order on `lastUsedAt` used by `orderBy: { lastUsedAt: 'asc' }`
(Postgres places NULLs last in ascending order). -/
def lruBefore (a b : Option Nat) : Bool :=
  match a, b with
  | some x, some y => decide (x < y)
  | some _, none => true
  | none, _ => false

/-- `prisma.depositWallet.findFirst({ where: { network, isAvailable: true },
orderBy: { lastUsedAt: 'asc' } })`: the least-recently-used available wallet
of the network (first row wins ties). -/
def findAvailableWallet (net : Network) (db : DB) : Option DepositWallet :=
  (db.wallets.filter (fun w => w.network == net && w.isAvailable)).foldl
    (fun acc w =>
      match acc with
      | none => some w
      | some b => if lruBefore w.lastUsedAt b.lastUsedAt then some w else acc)
    none

/-- `prisma.depositWallet.update({ where: { id }, data: { assignedToUserId,
assignedAt, expiresAt, isAvailable: false } })`. The update is keyed by id
only — it carries no condition on the current lease state. -/
def assignWalletById (wid userId now expires : Nat) (db : DB) : DB :=
  updateWallet wid (fun w =>
    { w with
      assignedToUserId := some userId, assignedAt := some now,
      expiresAt := some expires, isAvailable := false }) db

/-- The external capabilities `generateNewWallet` depends on. -/
structure ChainEnv where
  /-- Tatum address derivation (or test-mode generation): index to
  (address, privateKey) for the network. -/
  gen : Network → Nat → String × String
  /-- Independent re-derivation of the address from a private key
  (`ethersUtils.computeAddress` resp. `tronWeb.address.fromPrivateKey`);
  `none` models a falsy result. -/
  rederive : Network → String → Option String
  encryptK : String → String
  decryptK : String → String
  /-- `createWebhook` result when `WEBHOOK_URL` is configured and the Tatum
  call succeeds; `none` when unconfigured or the call failed (non-fatal). -/
  webhookFor : String → Option String
  /-- Whether `ENCRYPTION_SECRET` is configured. -/
  encryptionConfigured : Bool

/-- The address/key verification of `generateNewWallet`: BEP20 compares the
re-derived address case-insensitively, TRC20 exactly; a falsy re-derivation
fails. -/
def addrMatches (net : Network) (derived : Option String) (address : String) : Bool :=
  match net, derived with
  | Network.BEP20, some d => lowerChars d == lowerChars address
  | Network.TRC20, some d => d == address
  | _, none => false

/-- `findFirst({ where: { network }, orderBy: { derivationIndex: 'desc' } })`
then `+ 1`, or `0` for the first wallet of the network. -/
def nextDerivationIndex (net : Network) (db : DB) : Nat :=
  match (db.wallets.filter (fun w => w.network == net)).foldl
      (fun acc w =>
        match acc with
        | none => some w.derivationIndex
        | some m => some (max m w.derivationIndex)) none with
  | none => 0
  | some m => m + 1

inductive WalletGenErr
  | addressKeyMismatch
  | encryptionSecretMissing
  deriving DecidableEq

/-- `generateNewWallet(network)`: next index, derive (address, key), verify
the address against its own key (fatal mismatch, nothing persisted),
best-effort webhook subscription, encrypt the key, persist as available. -/
def generateNewWallet (env : ChainEnv) (net : Network) (db : DB) :
    Except WalletGenErr (DepositWallet × DB) :=
  let idx := nextDerivationIndex net db
  let pair := env.gen net idx
  let address := pair.1
  let privateKey := pair.2
  if !addrMatches net (env.rederive net privateKey) address then
    Except.error WalletGenErr.addressKeyMismatch
  else
    let wid := env.webhookFor address
    if !env.encryptionConfigured then Except.error WalletGenErr.encryptionSecretMissing
    else
      let w : DepositWallet :=
        { id := freshWalletId db, address := address, privateKey := env.encryptK privateKey,
          network := net, derivationIndex := idx, webhookId := wid,
          assignedToUserId := none, assignedAt := none, expiresAt := none,
          isAvailable := true, totalDeposits := 0, lastUsedAt := none }
      Except.ok (w, { db with wallets := db.wallets ++ [w] })

/-- Lazily create a missing webhook subscription for a wallet; failure or an
unconfigured `WEBHOOK_URL` leaves the row untouched. -/
def ensureWebhook (env : ChainEnv) (w : DepositWallet) (db : DB) : DB :=
  match w.webhookId with
  | some _ => db
  | none =>
    match env.webhookFor w.address with
    | some newId => updateWallet w.id (fun x => { x with webhookId := some newId }) db
    | none => db

structure AssignResult where
  address : String
  expiresAt : Nat
  isNew : Bool
  deriving DecidableEq

/-- `getOrAssignWallet(userId, network)`: return the user's unexpired
assignment if any; else lease the least-recently-used available wallet; else
derive a brand-new wallet and lease it. Each step is a separate store
round-trip (read then unconditional write), exactly as in the source. -/
def getOrAssignWallet (env : ChainEnv) (userId : Nat) (net : Network) (now : Nat) (db : DB) :
    Except WalletGenErr (AssignResult × DB) :=
  match findExistingAssignment userId net now db with
  | some w =>
    Except.ok ({ address := w.address, expiresAt := w.expiresAt.getD 0, isNew := false },
      ensureWebhook env w db)
  | none =>
    let expires := now + WALLET_ASSIGNMENT_DURATION
    match findAvailableWallet net db with
    | some w =>
      let db1 := ensureWebhook env w db
      Except.ok ({ address := w.address, expiresAt := expires, isNew := false },
        assignWalletById w.id userId now expires db1)
    | none =>
      match generateNewWallet env net db with
      | Except.error e => Except.error e
      | Except.ok (w, db1) =>
        Except.ok ({ address := w.address, expiresAt := expires, isNew := true },
          assignWalletById w.id userId now expires db1)

/-- `findWalletByAddress(address)`:
`prisma.depositWallet.findUnique({ where: { address } })`. -/
def findWalletByAddress (a : String) (db : DB) : Option DepositWallet :=
  db.wallets.find? (fun w => w.address == a)

/-- `markWalletUsed(walletId)`. -/
def markWalletUsed (wid : Nat) (now : Nat) (db : DB) : DB :=
  updateWallet wid (fun w =>
    { w with totalDeposits := w.totalDeposits + 1, lastUsedAt := some now }) db

/-- The Reaper's scan predicate: `isAvailable: false, expiresAt: { lt: now }`
(a null `expiresAt` never satisfies `lt`). -/
def isExpiredLeased (now : Nat) (w : DepositWallet) : Bool :=
  !w.isAvailable &&
    (match w.expiresAt with
     | some t => decide (t < now)
     | none => false)

/-- `prisma.depositWallet.findMany` of the Reaper. -/
def scanExpiredWallets (now : Nat) (db : DB) : List DepositWallet :=
  db.wallets.filter (isExpiredLeased now)

/-- Pointwise effect of `deposit.updateMany({ where: { depositAddress,
status: 'PENDING', expiresAt: { lt: now } }, data: { status: 'CANCELLED' } })`. -/
def cancelStep (now : Nat) (addr : String) (d : Deposit) : Deposit :=
  if d.depositAddress == addr && d.status == DepStatus.PENDING &&
      (match d.expiresAt with
       | some t => decide (t < now)
       | none => false) then
    { d with status := DepStatus.CANCELLED }
  else d

def cancelExpiredPendingFor (now : Nat) (addr : String) (db : DB) : DB :=
  { db with deposits := db.deposits.map (cancelStep now addr) }

/-- `depositWallet.updateMany({ where: { id: { in: ids } }, data: { ...lease
fields cleared... } })`: the release write is scoped by the scanned ids only —
it re-checks neither `expiresAt` nor `isAvailable`. -/
def releaseWalletsByIds (ids : List Nat) (now : Nat) (db : DB) : DB :=
  { db with wallets := db.wallets.map (fun w =>
      if ids.contains w.id then
        { w with
          assignedToUserId := none, assignedAt := none, expiresAt := none,
          isAvailable := true, lastUsedAt := some now }
      else w) }

/-- `releaseExpiredWallets()` (the Expiry Reaper body, run every 5 minutes):
scan expired leased wallets; if none, return; else cancel their timed-out
PENDING deposits wallet by wallet, then release all scanned wallets in one
batch update keyed by the scanned ids. -/
def releaseExpiredWallets (now : Nat) (db : DB) : DB :=
  if (scanExpiredWallets now db).isEmpty then db
  else
    releaseWalletsByIds ((scanExpiredWallets now db).map (fun w => w.id)) now
      ((scanExpiredWallets now db).foldl
        (fun acc w => cancelExpiredPendingFor now w.address acc) db)

end WalletPoolService

namespace WebhookController

/-- The accepted asset identifier list of `isValidDepositAsset` (symbols and
known USDT contract addresses). -/
def validAssets : List String :=
  ["USDT", "USDT_BSC", "USDT_TRON", "BSC_USDT", "TRC20_USDT", "BEP20_USDT",
   "0x55d398326f99059fF775485246999027B3197955",
   "0x337610d27c682E347C9cD60BD4b3b107C9d34dDd",
   "TR7NHqjeKQxGTCi8q8ZY4pL8otSzgjLj6t"]

/-- `isValidDepositAsset(asset)`: `validAssets.some(valid =>
asset.toUpperCase().includes(valid.toUpperCase()))` — a case-insensitive
substring test against the fixed list, with no network argument. -/
def isValidDepositAsset (asset : String) : Bool :=
  validAssets.any (fun valid => containsCI asset valid)

/-- The substring the one-time-bonus check scans descriptions for
(`description: { contains: '% deposit bonus' }`). -/
def pctDepositBonusPat : String := "% deposit bonus"

/-- The substring the referral one-time check scans descriptions for:
`from <username>'s deposit`. -/
def referralPat (username : String) : String :=
  ("from ") ++ username ++ apos ++ ("s deposit")

/-- `transaction.findFirst({ where: { userId, type: 'DEPOSIT_BONUS', status:
'CONFIRMED', description: { contains: '% deposit bonus' } } })` is some row. -/
def hasPriorDepositBonus (uid : Nat) (db : DB) : Bool :=
  db.transactions.any (fun t =>
    t.userId == uid && t.type == TxType.DEPOSIT_BONUS && t.status == TxStatus.CONFIRMED &&
      strContains t.description pctDepositBonusPat)

/-- The decision reached by `processIncomingDeposit`'s read phase. -/
inductive WebhookPlan
  | skip
  | orphan (w : DepositWallet)
  | wrongCurrency (w : DepositWallet)
  | credit (w : DepositWallet) (u : User) (amt : Rat) (bonus : Rat)
  deriving DecidableEq

/-- The read phase of `processIncomingDeposit` (every await in the source up
to and including the bonus-eligibility lookup, all before the first write):
duplicate-txId check, wallet lookup, unassigned-wallet check, asset
validation, amount validation, user lookup, bonus eligibility. -/
def webhookDecide (cfg : Config) (p : Payload) (db : DB) : WebhookPlan :=
  if hasDepositTx p.txId db then WebhookPlan.skip
  else
    match WalletPoolService.findWalletByAddress p.address db with
    | none => WebhookPlan.skip
    | some w =>
      match w.assignedToUserId with
      | none => WebhookPlan.orphan w
      | some uid =>
        if !isValidDepositAsset p.asset then WebhookPlan.wrongCurrency w
        else
          match p.amountParsed with
          | none => WebhookPlan.skip
          | some a =>
            if a ≤ 0 then WebhookPlan.skip
            else
              match findUserById uid db with
              | none => WebhookPlan.skip
              | some u =>
                let bonus :=
                  if hasPriorDepositBonus u.id db then 0
                  else a * cfg.depositBonusPercent / 100
                WebhookPlan.credit w u a bonus

def orphanPlaceholderUserId : Nat := 0

/-- `recordOrphanDeposit`: a PENDING deposit for the placeholder user. -/
def recordOrphanDeposit (w : DepositWallet) (p : Payload) (db : DB) : DB :=
  { db with
    deposits := db.deposits ++
      [{ id := freshDepositId db, userId := orphanPlaceholderUserId,
         amount := p.amountParsed.getD 0, network := w.network,
         depositAddress := w.address, depositWalletId := some w.id,
         txHash := some p.txId,
         currency := if p.asset == "" then ("UNKNOWN") else p.asset,
         status := DepStatus.PENDING, confirmedAt := none, bonusAmount := 0,
         expiresAt := none }] }

/-- `recordWrongCurrencyDeposit`: a FAILED deposit for tracking, plus a
wrong-currency notification when the owner (with a truthy email) is known. -/
def recordWrongCurrencyDeposit (w : DepositWallet) (p : Payload) (db : DB) : DB :=
  let amt := p.amountParsed.getD 0
  let userOpt := match w.assignedToUserId with
    | some uid => findUserById uid db
    | none => none
  let db1 := { db with
    deposits := db.deposits ++
      [{ id := freshDepositId db, userId := (userOpt.map (fun u => u.id)).getD orphanPlaceholderUserId,
         amount := amt, network := w.network, depositAddress := w.address,
         depositWalletId := some w.id, txHash := some p.txId,
         currency := if p.asset == "" then ("UNKNOWN") else p.asset,
         status := DepStatus.FAILED, confirmedAt := none, bonusAmount := 0,
         expiresAt := none }] }
  match userOpt with
  | some u =>
    if u.email == "" then db1
    else { db1 with
      outbox := db1.outbox ++
        [EmailMsg.wrongCurrency u.email (if p.asset == "" then ("Unknown") else p.asset)
          amt p.txId] }
  | none => db1

/-- `WebhookController.processReferralBonus(userId, depositAmount)`: only the
direct referrer; one-time per (referrer, depositor), detected by scanning for
a prior CONFIRMED DEPOSIT_BONUS transaction whose description contains
`from <username>'s deposit`; credits `REFERRAL_DEPOSIT_BONUS_PERCENT` of the
raw deposit amount in one atomic balance-update/record pair. -/
def processReferralBonus (cfg : Config) (userId : Nat) (depositAmount : Rat) (db : DB) : DB :=
  match findUserById userId db with
  | none => db
  | some u =>
    match u.referredBy with
    | none => db
    | some rid =>
      match findUserById rid db with
      | none => db
      | some r =>
        if db.transactions.any (fun t =>
            t.userId == r.id && t.type == TxType.DEPOSIT_BONUS &&
              t.status == TxStatus.CONFIRMED &&
              strContains t.description (referralPat u.username)) then db
        else
          let b := depositAmount * cfg.referralDepositBonusPercent / 100
          let db1 := updateUser r.id (fun x => { x with balance := x.balance + b }) db
          { db1 with
            transactions := db1.transactions ++
              [{ userId := r.id, type := TxType.DEPOSIT_BONUS, amount := b, netAmount := b,
                 status := TxStatus.CONFIRMED, reference := none,
                 description := numStr cfg.referralDepositBonusPercent ++
                   ("% referral bonus ") ++ referralPat u.username }] }

/-- The `prisma.$transaction([...])` of the webhook credit path: create the
CONFIRMED deposit with the bonus recorded, credit the balance by
amount+bonus and lifetime deposits by amount, append the DEPOSIT record and,
only when bonus > 0, the DEPOSIT_BONUS record — one all-or-nothing state
transition. -/
def applyDepositLedgerTx (cfg : Config) (now : Nat) (p : Payload) (w : DepositWallet)
    (u : User) (a bonus : Rat) (db : DB) : DB :=
  { db with
    deposits := db.deposits ++
      [{ id := freshDepositId db, userId := u.id, amount := a, network := w.network,
         depositAddress := p.address, depositWalletId := some w.id, txHash := some p.txId,
         currency := if p.asset == "" then ("USDT") else p.asset,
         status := DepStatus.CONFIRMED, confirmedAt := some now, bonusAmount := bonus,
         expiresAt := none }],
    users := db.users.map (fun x =>
      if x.id == u.id then
        { x with balance := x.balance + (a + bonus), totalDeposits := x.totalDeposits + a }
      else x),
    transactions := db.transactions ++
      [{ userId := u.id, type := TxType.DEPOSIT, amount := a, netAmount := a,
         status := TxStatus.CONFIRMED, reference := some p.txId,
         description := ("Deposit via ") ++ networkName w.network }] ++
      (if bonus > 0 then
        [{ userId := u.id, type := TxType.DEPOSIT_BONUS, amount := bonus, netAmount := bonus,
           status := TxStatus.CONFIRMED, reference := none,
           description := numStr cfg.depositBonusPercent ++ pctDepositBonusPat }]
      else []) }

/-- The write phase of `processIncomingDeposit`. On the credit path the
atomic ledger transaction is followed by `markWalletUsed`,
`processReferralBonus` and the confirmation email, in source order. -/
def webhookCommit (cfg : Config) (now : Nat) (p : Payload) (plan : WebhookPlan) (db : DB) : DB :=
  match plan with
  | WebhookPlan.skip => db
  | WebhookPlan.orphan w => recordOrphanDeposit w p db
  | WebhookPlan.wrongCurrency w => recordWrongCurrencyDeposit w p db
  | WebhookPlan.credit w u a bonus =>
    let db3 := processReferralBonus cfg u.id a
      (WalletPoolService.markWalletUsed w.id now (applyDepositLedgerTx cfg now p w u a bonus db))
    { db3 with outbox := db3.outbox ++ [EmailMsg.depositConfirmed u.email a p.txId] }

/-- `processIncomingDeposit(payload)`: the sequential composition of the read
phase and the write phase. -/
def processIncomingDeposit (cfg : Config) (now : Nat) (p : Payload) (db : DB) : DB :=
  webhookCommit cfg now p (webhookDecide cfg p db) db

end WebhookController

namespace DepositsService

inductive ConfirmErr
  | notFound
  | alreadyConfirmed
  deriving DecidableEq

/-- `DepositsService.processReferralBonus(userId, depositAmount)` (the
admin-confirmation path): only the direct referrer, credited
`REFERRAL_BONUS_PERCENT` of the raw amount with a REFERRAL_BONUS record —
with no prior-commission check of any kind. -/
def processReferralBonus (cfg : Config) (userId : Nat) (depositAmount : Rat) (db : DB) : DB :=
  match findUserById userId db with
  | none => db
  | some u =>
    match u.referredBy with
    | none => db
    | some rid =>
      match findUserById rid db with
      | none => db
      | some r =>
        let b := depositAmount * cfg.referralBonusPercent / 100
        let db1 := updateUser r.id (fun x =>
          { x with balance := x.balance + b, totalTeamEarnings := x.totalTeamEarnings + b }) db
        { db1 with
          transactions := db1.transactions ++
            [{ userId := r.id, type := TxType.REFERRAL_BONUS, amount := b, netAmount := b,
               status := TxStatus.CONFIRMED, reference := none,
               description := numStr cfg.referralBonusPercent ++
                 ("% referral bonus from ") ++ u.username }] }

/-- `DepositsService.confirmDeposit(depositId, txHash)` (admin/manual path):
errors when missing or already CONFIRMED; otherwise, in one
`prisma.$transaction`, confirms the deposit with `bonusAmount =
amount * DEPOSIT_BONUS_PERCENT / 100` (computed with no prior-bonus check),
credits balance and lifetime deposits, and appends DEPOSIT and DEPOSIT_BONUS
records (the bonus record unconditionally); then `markWalletUsed`, the
referral bonus and the confirmation email. -/
def confirmDeposit (cfg : Config) (now : Nat) (depositId : Nat) (txHash : String) (db : DB) :
    Except ConfirmErr DB :=
  match db.deposits.find? (fun d => d.id == depositId) with
  | none => Except.error ConfirmErr.notFound
  | some dep =>
    if dep.status == DepStatus.CONFIRMED then Except.error ConfirmErr.alreadyConfirmed
    else
      let bonusAmount := dep.amount * cfg.depositBonusPercent / 100
      let total := dep.amount + bonusAmount
      let db1 : DB :=
        { db with
          deposits := db.deposits.map (fun d =>
            if d.id == depositId then
              { d with
                status := DepStatus.CONFIRMED, txHash := some txHash,
                confirmedAt := some now, bonusAmount := bonusAmount }
            else d),
          users := db.users.map (fun x =>
            if x.id == dep.userId then
              { x with balance := x.balance + total, totalDeposits := x.totalDeposits + dep.amount }
            else x),
          transactions := db.transactions ++
            [{ userId := dep.userId, type := TxType.DEPOSIT, amount := dep.amount,
               netAmount := dep.amount, status := TxStatus.CONFIRMED, reference := some txHash,
               description := ("Deposit via ") ++ networkName dep.network },
             { userId := dep.userId, type := TxType.DEPOSIT_BONUS, amount := bonusAmount,
               netAmount := bonusAmount, status := TxStatus.CONFIRMED, reference := none,
               description := numStr cfg.depositBonusPercent ++
                 WebhookController.pctDepositBonusPat }] }
      let db2 := match dep.depositWalletId with
        | some wid => WalletPoolService.markWalletUsed wid now db1
        | none => db1
      let db3 := processReferralBonus cfg dep.userId dep.amount db2
      let db4 := match findUserById dep.userId db3 with
        | some u =>
          { db3 with outbox := db3.outbox ++ [EmailMsg.depositConfirmed u.email dep.amount txHash] }
        | none => db3
      Except.ok db4

end DepositsService

/-! Concrete states used by the counterexamples and witnesses. -/

def cfgD : Config :=
  { depositBonusPercent := 3, referralDepositBonusPercent := 7, referralBonusPercent := 7 }

def dbEmpty : DB :=
  { users := [], wallets := [], deposits := [], transactions := [], outbox := [] }

def c1user : User :=
  { id := 1, username := "alice", email := "alice@example.com", balance := 0,
    totalDeposits := 0, totalTeamEarnings := 0, referredBy := none }

def c1wallet : DepositWallet :=
  { id := 1, address := "0xAAA", privateKey := "enc1", network := Network.BEP20,
    derivationIndex := 0, webhookId := none, assignedToUserId := some 1,
    assignedAt := some 0, expiresAt := some 7200000, isAvailable := false,
    totalDeposits := 0, lastUsedAt := none }

def c1db0 : DB :=
  { users := [c1user], wallets := [c1wallet], deposits := [], transactions := [], outbox := [] }

def c1p : Payload :=
  { address := "0xAAA", txId := "tx1", amountParsed := some 100, asset := "USDT" }

/-- The final state of a legal concurrent schedule of two deliveries of the
same notification: every read of `processIncomingDeposit` happens before the
first write (each await is a suspension point), so both deliveries pass the
duplicate check against the same initial state, and both commits succeed —
the storage layer has no unique constraint on `txHash` to stop the second. -/
def c1race : DB :=
  WebhookController.webhookCommit cfgD 20 c1p (WebhookController.webhookDecide cfgD c1p c1db0)
    (WebhookController.webhookCommit cfgD 10 c1p (WebhookController.webhookDecide cfgD c1p c1db0)
      c1db0)

def c2w1 : DepositWallet :=
  { id := 1, address := "0xB1", privateKey := "e1", network := Network.BEP20,
    derivationIndex := 0, webhookId := some "wh1", assignedToUserId := none,
    assignedAt := none, expiresAt := none, isAvailable := true,
    totalDeposits := 0, lastUsedAt := some 10 }

def c2w2 : DepositWallet :=
  { id := 2, address := "0xB2", privateKey := "e2", network := Network.BEP20,
    derivationIndex := 1, webhookId := some "wh2", assignedToUserId := none,
    assignedAt := none, expiresAt := none, isAvailable := true,
    totalDeposits := 0, lastUsedAt := some 20 }

def c2db0 : DB :=
  { users := [c1user], wallets := [c2w1, c2w2], deposits := [], transactions := [], outbox := [] }

/-- State after call A's lease write (`update where id = 1`); both wallets
carry a webhook id, so `ensureWebhook` is the identity here. -/
def c2mid : DB :=
  WalletPoolService.assignWalletById 1 1 1000
    (1000 + WalletPoolService.WALLET_ASSIGNMENT_DURATION) c2db0

/-- State after call B's lease write (`update where id = 2`). -/
def c2after : DB :=
  WalletPoolService.assignWalletById 2 1 1000
    (1000 + WalletPoolService.WALLET_ASSIGNMENT_DURATION) c2mid

def c4dep1 : Deposit :=
  { id := 1, userId := 1, amount := 100, network := Network.BEP20, depositAddress := "0xAAA",
    depositWalletId := none, txHash := none, currency := "USDT", status := DepStatus.PENDING,
    confirmedAt := none, bonusAmount := 0, expiresAt := none }

def c4dep2 : Deposit := { c4dep1 with id := 2 }

def c4db0 : DB :=
  { users := [c1user], wallets := [], deposits := [c4dep1, c4dep2],
    transactions := [], outbox := [] }

/-- Two sequential admin confirmations of two $100 deposits of the same user. -/
def c4run : Except DepositsService.ConfirmErr DB :=
  (DepositsService.confirmDeposit cfgD 10 1 ("h1") c4db0).bind
    (fun db => DepositsService.confirmDeposit cfgD 20 2 ("h2") db)

def c5ref : User :=
  { id := 1, username := "ref", email := "ref@example.com", balance := 0,
    totalDeposits := 0, totalTeamEarnings := 0, referredBy := none }

def c5usr : User :=
  { id := 2, username := "bob", email := "bob@example.com", balance := 0,
    totalDeposits := 0, totalTeamEarnings := 0, referredBy := some 1 }

def c5dep1 : Deposit := { c4dep1 with userId := 2 }

def c5dep2 : Deposit := { c4dep1 with id := 2, userId := 2 }

def c5db0 : DB :=
  { users := [c5ref, c5usr], wallets := [], deposits := [c5dep1, c5dep2],
    transactions := [], outbox := [] }

/-- Two sequential admin confirmations of two $100 deposits of a referred user. -/
def c5run : Except DepositsService.ConfirmErr DB :=
  (DepositsService.confirmDeposit cfgD 10 1 ("h1") c5db0).bind
    (fun db => DepositsService.confirmDeposit cfgD 20 2 ("h2") db)

def c6env : WalletPoolService.ChainEnv :=
  { gen := fun _ idx => ("0xD" ++ toString idx, "key" ++ toString idx),
    rederive := fun _ k => if k == "key0" then some ("0xd0") else none,
    encryptK := id, decryptK := id, webhookFor := fun _ => none,
    encryptionConfigured := true }

/-- A chain environment whose re-derivation contradicts the derived address. -/
def c6envBad : WalletPoolService.ChainEnv :=
  { c6env with rederive := fun _ _ => some ("0xFFFF") }

def c6wallet : DepositWallet :=
  { id := 0, address := "0xD0", privateKey := "key0", network := Network.BEP20,
    derivationIndex := 0, webhookId := none, assignedToUserId := none,
    assignedAt := none, expiresAt := none, isAvailable := true,
    totalDeposits := 0, lastUsedAt := none }

def c7w : DepositWallet :=
  { id := 3, address := "0xEE", privateKey := "e7", network := Network.BEP20,
    derivationIndex := 0, webhookId := none, assignedToUserId := some 1,
    assignedAt := some 0, expiresAt := some 40, isAvailable := false,
    totalDeposits := 0, lastUsedAt := some 5 }

def c7depPending : Deposit :=
  { id := 7, userId := 1, amount := 100, network := Network.BEP20, depositAddress := "0xEE",
    depositWalletId := some 3, txHash := none, currency := "USDT",
    status := DepStatus.PENDING, confirmedAt := none, bonusAmount := 0, expiresAt := some 40 }

def c7depConfirmed : Deposit :=
  { id := 8, userId := 1, amount := 50, network := Network.BEP20, depositAddress := "0xEE",
    depositWalletId := some 3, txHash := some ("t0"), currency := "USDT",
    status := DepStatus.CONFIRMED, confirmedAt := some 30, bonusAmount := 0,
    expiresAt := some 40 }

def c7db0 : DB :=
  { users := [], wallets := [c7w], deposits := [c7depPending, c7depConfirmed],
    transactions := [], outbox := [] }

def c8w : DepositWallet :=
  { id := 1, address := "0xCC", privateKey := "k8", network := Network.BEP20,
    derivationIndex := 0, webhookId := none, assignedToUserId := some 1,
    assignedAt := some 0, expiresAt := some 50, isAvailable := false,
    totalDeposits := 0, lastUsedAt := none }

def c8db0 : DB :=
  { users := [], wallets := [c8w], deposits := [], transactions := [], outbox := [] }

/-- The Reaper's scan result on the initial state (read phase, at time 100). -/
def c8scanIds : List Nat :=
  (WalletPoolService.scanExpiredWallets 100 c8db0).map (fun w => w.id)

/-- A concurrent `getOrAssignWallet` re-leases the scanned wallet to user 2
with a fresh future expiry, between the Reaper's scan and its writes. -/
def c8db1 : DB :=
  WalletPoolService.assignWalletById 1 2 100
    (100 + WalletPoolService.WALLET_ASSIGNMENT_DURATION) c8db0

/-- The Reaper's cancellation loop (no pending deposits here). -/
def c8db2 : DB :=
  (WalletPoolService.scanExpiredWallets 100 c8db0).foldl
    (fun acc w => WalletPoolService.cancelExpiredPendingFor 100 w.address acc) c8db1

/-- The Reaper's release write, scoped only by the ids scanned earlier. -/
def c8final : DB :=
  WalletPoolService.releaseWalletsByIds c8scanIds 100 c8db2

/-- The wallet row as re-leased to user 2 (the single row of `c8db1`). -/
def c8wRe : DepositWallet :=
  { c8w with
    assignedToUserId := some 2, assignedAt := some 100,
    expiresAt := some 3600100, isAvailable := false }

def c9p : Payload :=
  { address := "0xAAA", txId := "tx9", amountParsed := some 25, asset := "USDC" }

def c10pA : Payload :=
  { address := "0xAAA", txId := "txA", amountParsed := some 100, asset := "MYUSDTCOIN" }

def c10pB : Payload :=
  { address := "0xAAA", txId := "txB", amountParsed := some 100,
    asset := "TR7NHqjeKQxGTCi8q8ZY4pL8otSzgjLj6t" }

/-!
Theorems. Claim theorems are named `<Namespace>.cN_...`; each counterexample
is a closed statement at explicit concrete inputs, and each concurrent
counterexample spells out, conjunct by conjunct, the reads and writes of a
legal schedule of the concurrent calls (every store round-trip and chain call
of the source is an await, hence a suspension point; any interleaving of
those primitive operations is a possible execution).
-/

/-- Searching a mapped list for a key the mapping preserves finds the mapped
image of the original hit. -/
theorem find?_map_of_key {α : Type _} (l : List α) (p : α → Bool) (g : α → α)
    (hpg : ∀ x, p (g x) = p x) :
    (l.map g).find? p = (l.find? p).map g := by
  induction l with
  | nil => rfl
  | cons a t ih =>
    cases ha : p a with
    | true =>
      rw [List.map_cons, List.find?_cons_of_pos _ (by rw [hpg a]; exact ha),
        List.find?_cons_of_pos _ ha]
      rfl
    | false =>
      rw [List.map_cons, List.find?_cons_of_neg _ (by rw [hpg a, ha]; exact Bool.false_ne_true),
        List.find?_cons_of_neg _ (by rw [ha]; exact Bool.false_ne_true)]
      exact ih

/-- In a list of wallets with pairwise distinct ids, searching by a member's
id finds exactly that member. -/
theorem find?_wallet_id_of_nodup {l : List DepositWallet} {w : DepositWallet}
    (hmem : w ∈ l) (hnd : (l.map (fun x => x.id)).Nodup) :
    l.find? (fun x => x.id == w.id) = some w := by
  induction l with
  | nil => cases hmem
  | cons a t ih =>
    rcases List.mem_cons.mp hmem with rfl | hmt
    · exact List.find?_cons_of_pos _ (by simp)
    · cases ha : (a.id == w.id) with
      | true =>
        exfalso
        have hwm : w.id ∈ t.map (fun x => x.id) := List.mem_map_of_mem _ hmt
        have ha' : a.id = w.id := by simpa using ha
        rw [List.map_cons, List.nodup_cons] at hnd
        exact hnd.1 (by rw [ha']; exact hwm)
      | false =>
        rw [List.find?_cons_of_neg _ (by rw [ha]; exact Bool.false_ne_true)]
        rw [List.map_cons, List.nodup_cons] at hnd
        exact ih hmt hnd.2

/-- C1 counterexample: delivering the same `{address, txId, amount, asset}`
notification twice concurrently does not yield exactly one CONFIRMED
DepositIntent and one balance credit, and the duplicate check is not backed
by a storage-level uniqueness guarantee: the migration declares only a
non-unique index on `txHash`, and in the schedule where both deliveries run
their read phases before either commits (both duplicate checks see the same
initial state), both commits succeed — two CONFIRMED deposits with txId
`tx1`, the balance credited twice (2 × (100 + 3) = 206), and two DEPOSIT
transaction records. -/
theorem WebhookController.c1_concurrent_double_credit :
    depositTxHashUniqueIndex = false ∧
    (c1race.deposits.filter (fun d =>
      d.txHash == some c1p.txId && d.status == DepStatus.CONFIRMED)).length = 2 ∧
    (findUserById 1 c1race).map (fun u => u.balance) = some 206 ∧
    (c1race.transactions.filter (fun t =>
      t.userId == 1 && t.type == TxType.DEPOSIT && t.status == TxStatus.CONFIRMED)).length = 2 :=
  by decide

/-- C2 counterexample: with two available wallets and no existing lease, the
schedule (A: existing-lease read; A: available read → wallet 1; B:
existing-lease read on the pre-write state → none; A: lease write; B:
available read → wallet 2; B: lease write) ends with two distinct wallets
simultaneously actively leased to the same (user 1, BEP20) pair — possible
precisely because the check/pick/lease sequence is a read followed by an
unconditional update keyed by id, not a single atomic conditional update. -/
theorem WalletPoolService.c2_race_two_leases :
    WalletPoolService.findExistingAssignment 1 Network.BEP20 1000 c2db0 = none ∧
    (WalletPoolService.findAvailableWallet Network.BEP20 c2db0).map (fun w => w.id) = some 1 ∧
    (WalletPoolService.findAvailableWallet Network.BEP20 c2mid).map (fun w => w.id) = some 2 ∧
    (c2after.wallets.filter (WalletPoolService.isActiveLease 1 Network.BEP20 1000)).map
      (fun w => w.id) = [1, 2] :=
  by decide

/-- C4 counterexample: two admin confirmations (`DepositsService.confirmDeposit`)
of two separate $100 deposits of the same user at 3% both succeed and BOTH
carry a non-zero bonus (bonusAmount 3 each, two CONFIRMED DEPOSIT_BONUS
records), because the admin path computes the bonus with no prior-bonus
check — so "exactly one non-zero bonus across every confirmation path" fails. -/
theorem DepositsService.c4_admin_double_bonus :
    c4run.toOption.map (fun db =>
      ((db.deposits.filter (fun d =>
          d.status == DepStatus.CONFIRMED && !(d.bonusAmount == 0))).length,
       (db.transactions.filter (fun t =>
          t.userId == 1 && t.type == TxType.DEPOSIT_BONUS &&
            t.status == TxStatus.CONFIRMED)).length)) = some (2, 2) :=
  by decide

/-- C5 counterexample: two admin confirmations of two separate $100 deposits
of a referred user produce TWO referral-commission transactions for the
referrer (7 each, balance 14), because `DepositsService.processReferralBonus`
has no one-time check — so "at most once per (referrer, depositor) pair
across every confirmation path" fails. -/
theorem DepositsService.c5_admin_double_referral :
    c5run.toOption.map (fun db =>
      ((db.transactions.filter (fun t =>
          t.userId == 1 &&
            (t.type == TxType.REFERRAL_BONUS || t.type == TxType.DEPOSIT_BONUS) &&
            t.status == TxStatus.CONFIRMED)).length,
       (findUserById 1 db).map (fun u => u.balance))) = some (2, some 14) :=
  by decide

/-- C8 counterexample: wallet 1's lease expired at 50; the Reaper scans at
time 100 and collects id 1; before the release write, a concurrent
`getOrAssignWallet` re-leases the wallet to user 2 with expiry 3600100 (far
in the future); the release write — scoped only by the scanned ids, with no
expiry re-check — then clears the brand-new lease anyway. -/
theorem WalletPoolService.c8_race_release_clobbers_new_lease :
    c8scanIds = [1] ∧
    (findWalletById 1 c8db1).map (fun w => (w.assignedToUserId, w.expiresAt, w.isAvailable)) =
      some (some 2, some 3600100, false) ∧
    (findWalletById 1 c8final).map (fun w => (w.assignedToUserId, w.expiresAt, w.isAvailable)) =
      some (none, none, true) :=
  by decide

/-- C1 (amended): sequential re-delivery of an already-recorded txId is an
idempotent no-op — once any deposit row carries this txId, the duplicate
check discards the notification and the state is returned unchanged, so
sequential double delivery yields exactly one CONFIRMED intent and one
credit; the concurrent half of the claim fails (see the counterexample). -/
theorem WebhookController.c1_redelivery_noop (cfg : Config) (now : Nat) (p : Payload) (db : DB)
    (h : hasDepositTx p.txId db = true) :
    WebhookController.processIncomingDeposit cfg now p db = db := by
  unfold WebhookController.processIncomingDeposit WebhookController.webhookDecide
  rw [h]
  rfl

/-- C1 witness: re-delivering `tx1` to a state that already holds it is a
no-op. -/
theorem WebhookController.c1_redelivery_noop_witness :
    hasDepositTx c1p.txId c1race = true ∧
    WebhookController.processIncomingDeposit cfgD 30 c1p c1race = c1race :=
  ⟨by decide, WebhookController.c1_redelivery_noop cfgD 30 c1p c1race (by decide)⟩

/-- C4 (amended): on the webhook path the bonus applies iff the user has no
prior CONFIRMED DEPOSIT_BONUS transaction whose description contains
`% deposit bonus`: for a fresh valid notification the decision is `credit`
with bonus `0` when such a record exists and `amount * percent / 100`
otherwise. (The admin `confirmDeposit` path applies the bonus
unconditionally — see the counterexample.) -/
theorem WebhookController.c4_bonus_iff_no_prior (cfg : Config) (p : Payload) (db : DB)
    (w : DepositWallet) (uid : Nat) (u : User) (a : Rat)
    (h1 : hasDepositTx p.txId db = false)
    (h2 : WalletPoolService.findWalletByAddress p.address db = some w)
    (h3 : w.assignedToUserId = some uid)
    (h4 : WebhookController.isValidDepositAsset p.asset = true)
    (h5 : p.amountParsed = some a)
    (h6 : ¬ a ≤ 0)
    (h7 : findUserById uid db = some u) :
    WebhookController.webhookDecide cfg p db =
      WebhookController.WebhookPlan.credit w u a
        (if WebhookController.hasPriorDepositBonus u.id db then 0
         else a * cfg.depositBonusPercent / 100) := by
  simp [WebhookController.webhookDecide, h1, h2, h3, h4, h5, h6, h7]

/-- C4 witness: a first $100 deposit at 3% on a fresh account decides
`credit` with the prior-bonus conditional. -/
theorem WebhookController.c4_bonus_iff_no_prior_witness :
    WebhookController.webhookDecide cfgD c1p c1db0 =
      WebhookController.WebhookPlan.credit c1wallet c1user 100
        (if WebhookController.hasPriorDepositBonus c1user.id c1db0 then 0
         else 100 * cfgD.depositBonusPercent / 100) :=
  WebhookController.c4_bonus_iff_no_prior cfgD c1p c1db0 c1wallet 1 c1user 100
    (by decide) (by decide) (by decide) (by decide) (by decide) (by decide) (by decide)

/-- C6: derivation integrity of `generateNewWallet` — a successfully
persisted wallet's address is reproduced by re-derivation from its own
decrypted private key and the wallet is appended as the only change, while a
re-derivation mismatch is a fatal error with nothing persisted. -/
theorem WalletPoolService.c6_derivation_integrity (env : WalletPoolService.ChainEnv)
    (net : Network) (db : DB)
    (hdec : ∀ s, env.decryptK (env.encryptK s) = s) :
    (∀ w db2, WalletPoolService.generateNewWallet env net db = Except.ok (w, db2) →
      WalletPoolService.addrMatches net
        (env.rederive net (env.decryptK w.privateKey)) w.address = true ∧
      db2.wallets = db.wallets ++ [w]) ∧
    (WalletPoolService.addrMatches net
        (env.rederive net (env.gen net (WalletPoolService.nextDerivationIndex net db)).2)
        (env.gen net (WalletPoolService.nextDerivationIndex net db)).1 = false →
      WalletPoolService.generateNewWallet env net db =
        Except.error WalletPoolService.WalletGenErr.addressKeyMismatch) := by
  constructor
  · intro w db2 hok
    unfold WalletPoolService.generateNewWallet at hok
    by_cases hm : WalletPoolService.addrMatches net
        (env.rederive net (env.gen net (WalletPoolService.nextDerivationIndex net db)).2)
        (env.gen net (WalletPoolService.nextDerivationIndex net db)).1 = true
    · by_cases he : env.encryptionConfigured = true
      · simp only [hm, he, Bool.not_true, Bool.false_eq_true, if_false,
          Except.ok.injEq, Prod.mk.injEq] at hok
        obtain ⟨hw, hdb2⟩ := hok
        subst hw
        subst hdb2
        refine ⟨?_, rfl⟩
        simp only [hdec]
        exact hm
      · rw [Bool.not_eq_true] at he
        simp [hm, he] at hok
    · rw [Bool.not_eq_true] at hm
      simp [hm] at hok
  · intro hbad
    simp [WalletPoolService.generateNewWallet, hbad]

/-- C6 witness: the concrete environment `c6env` persists `c6wallet` whose
key reproduces its address, and the corrupted environment `c6envBad` aborts
with the mismatch error. -/
theorem WalletPoolService.c6_derivation_integrity_witness :
    (WalletPoolService.addrMatches Network.BEP20
      (c6env.rederive Network.BEP20 (c6env.decryptK c6wallet.privateKey)) c6wallet.address = true ∧
     ({ dbEmpty with wallets := [c6wallet] } : DB).wallets = dbEmpty.wallets ++ [c6wallet]) ∧
    WalletPoolService.generateNewWallet c6envBad Network.BEP20 dbEmpty =
      Except.error WalletPoolService.WalletGenErr.addressKeyMismatch :=
  ⟨(WalletPoolService.c6_derivation_integrity c6env Network.BEP20 dbEmpty (fun _ => rfl)).1
      c6wallet { dbEmpty with wallets := [c6wallet] } rfl,
   (WalletPoolService.c6_derivation_integrity c6envBad Network.BEP20 dbEmpty (fun _ => rfl)).2
      (by decide)⟩

/-- C8 (amended): the Reaper's release write is scoped only by the wallet ids
collected at scan time — it neither re-checks expiry at write time nor scopes
the update by the expiry predicate, so any wallet whose id was scanned has
its lease fields cleared by the write regardless of its current lease state
(in particular a lease re-acquired after the scan is destroyed; the claim as
stated is refuted by the counterexample). -/
theorem WalletPoolService.c8_release_unscoped_by_expiry (ids : List Nat) (now : Nat) (db : DB)
    (w : DepositWallet) (hmem : w ∈ db.wallets)
    (hnd : (db.wallets.map (fun x => x.id)).Nodup)
    (hin : ids.contains w.id = true) :
    findWalletById w.id (WalletPoolService.releaseWalletsByIds ids now db) =
      some { w with
             assignedToUserId := none, assignedAt := none, expiresAt := none,
             isAvailable := true, lastUsedAt := some now } := by
  unfold findWalletById WalletPoolService.releaseWalletsByIds
  rw [find?_map_of_key _ _ _ (fun x => by cases hc : ids.contains x.id <;> simp [hc]),
    find?_wallet_id_of_nodup hmem hnd]
  simp only [Option.map_some']
  rw [if_pos hin]

/-- C8 witness: releasing by the scanned id list `[1]` clears the re-leased
wallet row of `c8db1`. -/
theorem WalletPoolService.c8_release_unscoped_by_expiry_witness :
    findWalletById c8wRe.id (WalletPoolService.releaseWalletsByIds [1] 100 c8db1) =
      some { c8wRe with
             assignedToUserId := none, assignedAt := none, expiresAt := none,
             isAvailable := true, lastUsedAt := some 100 } :=
  WalletPoolService.c8_release_unscoped_by_expiry [1] 100 c8db1 c8wRe
    (by decide) (by decide) (by decide)

/-- C9: a notification whose asset fails validation, delivered to a leased
pool wallet, records exactly one FAILED DepositIntent carrying the txId and
notifies the owning user, while user rows (balances, lifetime totals) and
transaction rows are unchanged — the wrong-asset path never touches balances. -/
theorem WebhookController.c9_wrong_asset_frame (cfg : Config) (now : Nat) (p : Payload) (db : DB)
    (w : DepositWallet) (uid : Nat)
    (h1 : hasDepositTx p.txId db = false)
    (h2 : WalletPoolService.findWalletByAddress p.address db = some w)
    (h3 : w.assignedToUserId = some uid)
    (h4 : WebhookController.isValidDepositAsset p.asset = false) :
    (WebhookController.processIncomingDeposit cfg now p db).users = db.users ∧
    (WebhookController.processIncomingDeposit cfg now p db).transactions = db.transactions ∧
    (∃ d, (WebhookController.processIncomingDeposit cfg now p db).deposits = db.deposits ++ [d] ∧
      d.status = DepStatus.FAILED ∧ d.txHash = some p.txId) ∧
    (∀ u, findUserById uid db = some u → u.email ≠ "" →
      (WebhookController.processIncomingDeposit cfg now p db).outbox =
        db.outbox ++ [EmailMsg.wrongCurrency u.email
          (if p.asset == "" then ("Unknown") else p.asset) (p.amountParsed.getD 0) p.txId]) := by
  have hplan : WebhookController.webhookDecide cfg p db =
      WebhookController.WebhookPlan.wrongCurrency w := by
    simp [WebhookController.webhookDecide, h1, h2, h3, h4]
  have hrun : WebhookController.processIncomingDeposit cfg now p db =
      WebhookController.recordWrongCurrencyDeposit w p db := by
    unfold WebhookController.processIncomingDeposit
    rw [hplan]
    rfl
  rw [hrun]
  cases hu : findUserById uid db with
  | none =>
    have heval : WebhookController.recordWrongCurrencyDeposit w p db =
        { db with
          deposits := db.deposits ++
            [{ id := freshDepositId db, userId := WebhookController.orphanPlaceholderUserId,
               amount := p.amountParsed.getD 0, network := w.network,
               depositAddress := w.address, depositWalletId := some w.id,
               txHash := some p.txId,
               currency := if p.asset == "" then ("UNKNOWN") else p.asset,
               status := DepStatus.FAILED, confirmedAt := none, bonusAmount := 0,
               expiresAt := none }] } := by
      simp only [WebhookController.recordWrongCurrencyDeposit, h3, hu, Option.map_none']
      rfl
    rw [heval]
    refine ⟨rfl, rfl, ⟨_, rfl, rfl, rfl⟩, ?_⟩
    intro u h
    exact Option.noConfusion h
  | some u =>
    cases he : (u.email == "") with
    | true =>
      have heval : WebhookController.recordWrongCurrencyDeposit w p db =
          { db with
            deposits := db.deposits ++
              [{ id := freshDepositId db, userId := u.id,
                 amount := p.amountParsed.getD 0, network := w.network,
                 depositAddress := w.address, depositWalletId := some w.id,
                 txHash := some p.txId,
                 currency := if p.asset == "" then ("UNKNOWN") else p.asset,
                 status := DepStatus.FAILED, confirmedAt := none, bonusAmount := 0,
                 expiresAt := none }] } := by
        simp only [WebhookController.recordWrongCurrencyDeposit, h3, hu, he, Option.map_some']
        rfl
      rw [heval]
      refine ⟨rfl, rfl, ⟨_, rfl, rfl, rfl⟩, ?_⟩
      intro v hv hne
      injection hv with hv
      subst hv
      exact absurd (by simpa using he) hne
    | false =>
      have heval : WebhookController.recordWrongCurrencyDeposit w p db =
          { db with
            deposits := db.deposits ++
              [{ id := freshDepositId db, userId := u.id,
                 amount := p.amountParsed.getD 0, network := w.network,
                 depositAddress := w.address, depositWalletId := some w.id,
                 txHash := some p.txId,
                 currency := if p.asset == "" then ("UNKNOWN") else p.asset,
                 status := DepStatus.FAILED, confirmedAt := none, bonusAmount := 0,
                 expiresAt := none }],
            outbox := db.outbox ++
              [EmailMsg.wrongCurrency u.email (if p.asset == "" then ("Unknown") else p.asset)
                (p.amountParsed.getD 0) p.txId] } := by
        simp only [WebhookController.recordWrongCurrencyDeposit, h3, hu, he, Option.map_some']
        rfl
      rw [heval]
      refine ⟨rfl, rfl, ⟨_, rfl, rfl, rfl⟩, ?_⟩
      intro v hv _
      injection hv with hv
      subst hv
      rfl

/-- C9 witness: a `USDC` notification of 25 on the leased wallet of `c1db0`
leaves users and transactions unchanged, appends one FAILED deposit with tx
`tx9`, and queues the wrong-currency notification to the owner. -/
theorem WebhookController.c9_wrong_asset_frame_witness :
    (WebhookController.processIncomingDeposit cfgD 50 c9p c1db0).users = c1db0.users ∧
    (WebhookController.processIncomingDeposit cfgD 50 c9p c1db0).transactions =
      c1db0.transactions ∧
    (∃ d, (WebhookController.processIncomingDeposit cfgD 50 c9p c1db0).deposits =
      c1db0.deposits ++ [d] ∧ d.status = DepStatus.FAILED ∧ d.txHash = some c9p.txId) ∧
    (∀ u, findUserById 1 c1db0 = some u → u.email ≠ "" →
      (WebhookController.processIncomingDeposit cfgD 50 c9p c1db0).outbox =
        c1db0.outbox ++ [EmailMsg.wrongCurrency u.email
          (if c9p.asset == "" then ("Unknown") else c9p.asset)
          (c9p.amountParsed.getD 0) c9p.txId]) :=
  WebhookController.c9_wrong_asset_frame cfgD 50 c9p c1db0 c1wallet 1
    (by decide) (by decide) (by decide) (by decide)

/-- C10: asset validation is a case-insensitive substring test against the
fixed accepted-identifier list and is independent of the wallet's network:
any asset containing an accepted entry as a case-insensitive substring passes
validation, and any notification with a passing asset on a leased wallet
(whatever its network) with a fresh txId, a known user and a positive amount
is decided as a valid credit rather than recorded as FAILED. -/
theorem WebhookController.c10_asset_substring_validation :
    (∀ asset v, v ∈ WebhookController.validAssets → containsCI asset v = true →
      WebhookController.isValidDepositAsset asset = true) ∧
    (∀ cfg p db w uid u a,
      hasDepositTx p.txId db = false →
      WalletPoolService.findWalletByAddress p.address db = some w →
      w.assignedToUserId = some uid →
      WebhookController.isValidDepositAsset p.asset = true →
      p.amountParsed = some a → ¬ a ≤ 0 →
      findUserById uid db = some u →
      ∃ bonus, WebhookController.webhookDecide cfg p db =
        WebhookController.WebhookPlan.credit w u a bonus) := by
  constructor
  · intro asset v hv hc
    unfold WebhookController.isValidDepositAsset
    exact List.any_eq_true.mpr ⟨v, hv, hc⟩
  · intro cfg p db w uid u a h1 h2 h3 h4 h5 h6 h7
    exact ⟨if WebhookController.hasPriorDepositBonus u.id db then 0
        else a * cfg.depositBonusPercent / 100,
      by simp [WebhookController.webhookDecide, h1, h2, h3, h4, h5, h6, h7]⟩

/-- C10 witness: `MYUSDTCOIN` passes validation (it contains `USDT`), and the
TRON USDT contract address arriving on the BEP20-leased wallet of `c1db0` is
decided as a valid credit, not recorded as FAILED. -/
theorem WebhookController.c10_asset_substring_validation_witness :
    WebhookController.isValidDepositAsset ("MYUSDTCOIN") = true ∧
    (∃ bonus, WebhookController.webhookDecide cfgD c10pB c1db0 =
      WebhookController.WebhookPlan.credit c1wallet c1user 100 bonus) :=
  ⟨WebhookController.c10_asset_substring_validation.1 ("MYUSDTCOIN") ("USDT")
      (by decide) (by decide),
   WebhookController.c10_asset_substring_validation.2 cfgD c10pB c1db0 c1wallet 1 c1user 100
      (by decide) (by decide) (by decide) (by decide) (by decide) (by decide) (by decide)⟩

/-- The Reaper's per-wallet cancellation loop rewrites each deposit pointwise
by the composed cancellation steps and changes nothing else. -/
theorem cancelFold_eval (ws : List DepositWallet) (now : Nat) (db : DB) :
    ws.foldl (fun acc w => WalletPoolService.cancelExpiredPendingFor now w.address acc) db =
      { db with
        deposits := db.deposits.map
          (fun d => ws.foldl (fun d w => WalletPoolService.cancelStep now w.address d) d) } := by
  induction ws generalizing db with
  | nil => simp
  | cons a ws ih =>
    rw [List.foldl_cons,
      show WalletPoolService.cancelExpiredPendingFor now a.address db =
        { db with deposits := db.deposits.map (WalletPoolService.cancelStep now a.address) }
        from rfl,
      ih]
    simp only [List.map_map]
    rfl

/-- A deposit that is not PENDING is untouched by any sequence of
cancellation steps. -/
theorem cancelSteps_of_not_pending (ws : List DepositWallet) (now : Nat) (d : Deposit)
    (hp : (d.status == DepStatus.PENDING) = false) :
    ws.foldl (fun d w => WalletPoolService.cancelStep now w.address d) d = d := by
  induction ws with
  | nil => rfl
  | cons a ws ih =>
    have hstep : WalletPoolService.cancelStep now a.address d = d := by
      simp [WalletPoolService.cancelStep, hp]
    rw [List.foldl_cons, hstep]
    exact ih

/-- A PENDING deposit with past expiry whose address belongs to one of the
scanned wallets ends CANCELLED after the cancellation loop. -/
theorem cancelSteps_cancels (ws : List DepositWallet) (now : Nat) (d : Deposit)
    (hp : d.status = DepStatus.PENDING) (e : Nat) (he : d.expiresAt = some e) (hlt : e < now)
    (w : DepositWallet) (hw : w ∈ ws) (ha : d.depositAddress = w.address) :
    ws.foldl (fun d w => WalletPoolService.cancelStep now w.address d) d =
      { d with status := DepStatus.CANCELLED } := by
  induction ws with
  | nil => cases hw
  | cons a ws ih =>
    rw [List.foldl_cons]
    cases hcond : (d.depositAddress == a.address && d.status == DepStatus.PENDING &&
        (match d.expiresAt with
         | some t => decide (t < now)
         | none => false)) with
    | true =>
      have hstep : WalletPoolService.cancelStep now a.address d =
          { d with status := DepStatus.CANCELLED } := by
        unfold WalletPoolService.cancelStep
        rw [if_pos hcond]
      rw [hstep]
      exact cancelSteps_of_not_pending ws now _ (by simp)
    | false =>
      have hstep : WalletPoolService.cancelStep now a.address d = d := by
        unfold WalletPoolService.cancelStep
        rw [if_neg (by simp [hcond])]
      rw [hstep]
      rcases List.mem_cons.mp hw with rfl | hmt
      · exfalso
        simp [ha, hp, he, hlt] at hcond
      · exact ih hmt

/-- C7: one Reaper run over a wallet leased with past expiry releases the
wallet (lease holder, assignment time and expiry cleared, available again)
and cancels every still-PENDING deposit on that wallet's address whose own
expiry has passed, while every CONFIRMED deposit survives unchanged. -/
theorem WalletPoolService.c7_reaper_releases_and_cancels (now : Nat) (db : DB)
    (w : DepositWallet) (t : Nat)
    (hmem : w ∈ db.wallets) (hna : w.isAvailable = false)
    (hexp : w.expiresAt = some t) (hlt : t < now)
    (hnd : (db.wallets.map (fun x => x.id)).Nodup) :
    findWalletById w.id (WalletPoolService.releaseExpiredWallets now db) =
      some { w with
             assignedToUserId := none, assignedAt := none, expiresAt := none,
             isAvailable := true, lastUsedAt := some now } ∧
    (∀ d ∈ db.deposits, d.depositAddress = w.address → d.status = DepStatus.PENDING →
      ∀ e, d.expiresAt = some e → e < now →
        { d with status := DepStatus.CANCELLED } ∈
          (WalletPoolService.releaseExpiredWallets now db).deposits) ∧
    (∀ d ∈ db.deposits, d.status = DepStatus.CONFIRMED →
      d ∈ (WalletPoolService.releaseExpiredWallets now db).deposits) := by
  have hwexp : w ∈ WalletPoolService.scanExpiredWallets now db := by
    unfold WalletPoolService.scanExpiredWallets
    refine List.mem_filter.mpr ⟨hmem, ?_⟩
    simp [WalletPoolService.isExpiredLeased, hna, hexp, hlt]
  have hemp : (WalletPoolService.scanExpiredWallets now db).isEmpty = false := by
    cases h : WalletPoolService.scanExpiredWallets now db with
    | nil => rw [h] at hwexp; cases hwexp
    | cons a l => rfl
  have hrel : WalletPoolService.releaseExpiredWallets now db =
      WalletPoolService.releaseWalletsByIds
        ((WalletPoolService.scanExpiredWallets now db).map (fun x => x.id)) now
        ((WalletPoolService.scanExpiredWallets now db).foldl
          (fun acc x => WalletPoolService.cancelExpiredPendingFor now x.address acc) db) := by
    unfold WalletPoolService.releaseExpiredWallets
    rw [hemp]
    rfl
  have hid : w.id ∈ (WalletPoolService.scanExpiredWallets now db).map (fun x => x.id) :=
    List.mem_map_of_mem _ hwexp
  rw [hrel, cancelFold_eval]
  unfold WalletPoolService.releaseWalletsByIds
  refine ⟨?_, ?_, ?_⟩
  · unfold findWalletById
    rw [find?_map_of_key _ _ _ (fun x => by
        cases hc : ((WalletPoolService.scanExpiredWallets now db).map
          (fun x => x.id)).contains x.id <;> simp [hc]),
      find?_wallet_id_of_nodup hmem hnd]
    simp only [Option.map_some']
    rw [if_pos (by simpa using hid)]
  · intro d hd ha hp e he hlt2
    have hf : (WalletPoolService.scanExpiredWallets now db).foldl
        (fun d x => WalletPoolService.cancelStep now x.address d) d =
        { d with status := DepStatus.CANCELLED } :=
      cancelSteps_cancels _ now d hp e he hlt2 w hwexp ha
    rw [← hf]
    exact List.mem_map_of_mem _ hd
  · intro d hd hc
    have hf : (WalletPoolService.scanExpiredWallets now db).foldl
        (fun d x => WalletPoolService.cancelStep now x.address d) d = d :=
      cancelSteps_of_not_pending _ now d (by simp [hc])
    rw [← hf]
    exact List.mem_map_of_mem _ hd

/-- C7 witness: at time 100 the Reaper run over `c7db0` releases wallet 3
(leased, expired at 40), cancels its expired PENDING deposit and keeps its
CONFIRMED deposit. -/
theorem WalletPoolService.c7_reaper_releases_and_cancels_witness :
    findWalletById c7w.id (WalletPoolService.releaseExpiredWallets 100 c7db0) =
      some { c7w with
             assignedToUserId := none, assignedAt := none, expiresAt := none,
             isAvailable := true, lastUsedAt := some 100 } ∧
    ({ c7depPending with status := DepStatus.CANCELLED } ∈
      (WalletPoolService.releaseExpiredWallets 100 c7db0).deposits) ∧
    (c7depConfirmed ∈ (WalletPoolService.releaseExpiredWallets 100 c7db0).deposits) := by
  obtain ⟨h1, h2, h3⟩ := WalletPoolService.c7_reaper_releases_and_cancels 100 c7db0 c7w 40
    (by decide) (by decide) (by decide) (by decide) (by decide)
  exact ⟨h1, h2 c7depPending (by decide) (by decide) (by decide) 40 (by decide) (by decide),
    h3 c7depConfirmed (by decide) (by decide)⟩

/-- A string contains its own suffix. -/
theorem strContains_append (x pat : String) : strContains (x ++ pat) pat = true := by
  unfold strContains
  rw [decide_eq_true_eq]
  have hx : (x ++ pat).toList = x.toList ++ pat.toList := String.data_append x pat
  rw [hx]
  exact (List.suffix_append _ _).isInfix

/-- C5 (amended): on the webhook path the referral commission is one-shot —
running `WebhookController.processReferralBonus` a second time for the same
depositor is a no-op, whatever the two deposit amounts: either the first run
already found a prior commission (or no referrer) and changed nothing, or it
recorded a commission transaction whose description contains
`from <username>'s deposit`, which the second run's scan then finds. (The
admin path lacks any such check — see the counterexample.) -/
theorem WebhookController.c5_referral_one_shot (cfg : Config) (uid : Nat) (amt1 amt2 : Rat)
    (db : DB) :
    WebhookController.processReferralBonus cfg uid amt2
      (WebhookController.processReferralBonus cfg uid amt1 db) =
      WebhookController.processReferralBonus cfg uid amt1 db := by
  cases hu : findUserById uid db with
  | none =>
    have h1 : WebhookController.processReferralBonus cfg uid amt1 db = db := by
      simp only [WebhookController.processReferralBonus, hu]
    rw [h1]
    simp only [WebhookController.processReferralBonus, hu]
  | some u =>
    cases hr : u.referredBy with
    | none =>
      have h1 : WebhookController.processReferralBonus cfg uid amt1 db = db := by
        simp only [WebhookController.processReferralBonus, hu, hr]
      rw [h1]
      simp only [WebhookController.processReferralBonus, hu, hr]
    | some rid =>
      cases hrr : findUserById rid db with
      | none =>
        have h1 : WebhookController.processReferralBonus cfg uid amt1 db = db := by
          simp only [WebhookController.processReferralBonus, hu, hr, hrr]
        rw [h1]
        simp only [WebhookController.processReferralBonus, hu, hr, hrr]
      | some r =>
        cases hex : db.transactions.any (fun t =>
            t.userId == r.id && t.type == TxType.DEPOSIT_BONUS &&
              t.status == TxStatus.CONFIRMED &&
              strContains t.description (WebhookController.referralPat u.username)) with
        | true =>
          have h1 : WebhookController.processReferralBonus cfg uid amt1 db = db := by
            simp only [WebhookController.processReferralBonus, hu, hr, hrr, hex, if_true]
          rw [h1]
          simp only [WebhookController.processReferralBonus, hu, hr, hrr, hex, if_true]
        | false =>
          set b : Rat := amt1 * cfg.referralDepositBonusPercent / 100 with hb
          set G : User → User :=
            (fun x => if x.id == r.id then { x with balance := x.balance + b } else x) with hG
          set newTxn : Txn :=
            { userId := r.id, type := TxType.DEPOSIT_BONUS, amount := b, netAmount := b,
              status := TxStatus.CONFIRMED, reference := none,
              description := numStr cfg.referralDepositBonusPercent ++
                ("% referral bonus ") ++ WebhookController.referralPat u.username } with hT
          have h1 : WebhookController.processReferralBonus cfg uid amt1 db =
              { db with
                users := db.users.map G,
                transactions := db.transactions ++ [newTxn] } := by
            simp only [WebhookController.processReferralBonus, hu, hr, hrr, hex,
              Bool.false_eq_true, if_false, updateUser]
          have hGkeep : ∀ x : User, (G x).id = x.id ∧ (G x).referredBy = x.referredBy ∧
              (G x).username = x.username := by
            intro x
            rw [hG]
            cases hc : (x.id == r.id) <;> simp [hc]
          have hu2 : findUserById uid { db with
              users := db.users.map G, transactions := db.transactions ++ [newTxn] } =
              some (G u) := by
            unfold findUserById
            rw [show ({ db with
                users := db.users.map G,
                transactions := db.transactions ++ [newTxn] } : DB).users = db.users.map G
              from rfl]
            have hu' : db.users.find? (fun x => x.id == uid) = some u := hu
            rw [find?_map_of_key _ _ _ (fun x => by rw [(hGkeep x).1]), hu']
            rfl
          have hrr2 : findUserById rid { db with
              users := db.users.map G, transactions := db.transactions ++ [newTxn] } =
              some (G r) := by
            unfold findUserById
            rw [show ({ db with
                users := db.users.map G,
                transactions := db.transactions ++ [newTxn] } : DB).users = db.users.map G
              from rfl]
            have hrr' : db.users.find? (fun x => x.id == rid) = some r := hrr
            rw [find?_map_of_key _ _ _ (fun x => by rw [(hGkeep x).1]), hrr']
            rfl
          have hex2 : (db.transactions ++ [newTxn]).any (fun t =>
              t.userId == (G r).id && t.type == TxType.DEPOSIT_BONUS &&
                t.status == TxStatus.CONFIRMED &&
                strContains t.description
                  (WebhookController.referralPat (G u).username)) = true := by
            refine List.any_eq_true.mpr ⟨newTxn, List.mem_append_right _ (by simp), ?_⟩
            rw [(hGkeep r).1, (hGkeep u).2.2, hT]
            simp [strContains_append]
          rw [h1]
          simp only [WebhookController.processReferralBonus, hu2, (hGkeep u).2.1, hr, hrr2,
            hex2, if_true]

/-- Mapping a list with a function that fixes every hit of the search key
leaves the search result unchanged. -/
theorem find?_map_of_other {α : Type _} (l : List α) (p : α → Bool) (g : α → α)
    (hpg : ∀ x, p (g x) = p x)
    (hfix : ∀ x ∈ l, p x = true → g x = x) :
    (l.map g).find? p = l.find? p := by
  induction l with
  | nil => rfl
  | cons a t ih =>
    cases ha : p a with
    | true =>
      rw [List.map_cons, List.find?_cons_of_pos _ (by rw [hpg a]; exact ha),
        List.find?_cons_of_pos _ ha, hfix a (List.mem_cons_self a t) ha]
    | false =>
      rw [List.map_cons, List.find?_cons_of_neg _ (by rw [hpg a, ha]; exact Bool.false_ne_true),
        List.find?_cons_of_neg _ (by rw [ha]; exact Bool.false_ne_true)]
      exact ih (fun x hx => hfix x (List.mem_cons_of_mem a hx))

/-- `WebhookController.processReferralBonus` either changes nothing (no user,
no referrer, unresolved referrer, or prior commission found) or atomically
credits the referrer and appends the commission record. -/
theorem processReferralBonus_cases (cfg : Config) (uid : Nat) (amt : Rat) (db : DB) :
    WebhookController.processReferralBonus cfg uid amt db = db ∨
    ∃ u rid r, findUserById uid db = some u ∧ u.referredBy = some rid ∧
      findUserById rid db = some r ∧
      WebhookController.processReferralBonus cfg uid amt db =
        { db with
          users := db.users.map (fun x =>
            if x.id == r.id then
              { x with balance := x.balance + amt * cfg.referralDepositBonusPercent / 100 }
            else x),
          transactions := db.transactions ++
            [{ userId := r.id, type := TxType.DEPOSIT_BONUS,
               amount := amt * cfg.referralDepositBonusPercent / 100,
               netAmount := amt * cfg.referralDepositBonusPercent / 100,
               status := TxStatus.CONFIRMED, reference := none,
               description := numStr cfg.referralDepositBonusPercent ++
                 ("% referral bonus ") ++ WebhookController.referralPat u.username }] } := by
  cases hu : findUserById uid db with
  | none => exact Or.inl (by simp only [WebhookController.processReferralBonus, hu])
  | some u =>
    cases hr : u.referredBy with
    | none => exact Or.inl (by simp only [WebhookController.processReferralBonus, hu, hr])
    | some rid =>
      cases hrr : findUserById rid db with
      | none => exact Or.inl (by simp only [WebhookController.processReferralBonus, hu, hr, hrr])
      | some r =>
        cases hex : db.transactions.any (fun t =>
            t.userId == r.id && t.type == TxType.DEPOSIT_BONUS &&
              t.status == TxStatus.CONFIRMED &&
              strContains t.description (WebhookController.referralPat u.username)) with
        | true =>
          exact Or.inl (by
            simp only [WebhookController.processReferralBonus, hu, hr, hrr, hex, if_true])
        | false =>
          refine Or.inr ⟨u, rid, r, rfl, hr, hrr, ?_⟩
          simp only [WebhookController.processReferralBonus, hu, hr, hrr, hex,
            Bool.false_eq_true, if_false, updateUser]

/-- The referral step never touches deposit rows. -/
theorem processReferralBonus_deposits (cfg : Config) (uid : Nat) (amt : Rat) (db : DB) :
    (WebhookController.processReferralBonus cfg uid amt db).deposits = db.deposits := by
  rcases processReferralBonus_cases cfg uid amt db with heq | ⟨u, rid, r, hu, hr, hrr, heq⟩ <;>
    rw [heq]

/-- The referral step leaves any user other than the credited referrer
untouched. -/
theorem processReferralBonus_find_ne (cfg : Config) (uid : Nat) (amt : Rat) (db : DB) (i : Nat)
    (hne : ∀ v rid, findUserById uid db = some v → v.referredBy = some rid → rid ≠ i) :
    findUserById i (WebhookController.processReferralBonus cfg uid amt db) =
      findUserById i db := by
  rcases processReferralBonus_cases cfg uid amt db with heq | ⟨u, rid, r, hu, hr, hrr, heq⟩
  · rw [heq]
  · rw [heq]
    unfold findUserById
    apply find?_map_of_other
    · intro x; cases hc : (x.id == r.id) <;> simp [hc]
    · intro x hx hpx
      have hxi : x.id = i := by simpa using hpx
      have hrid : r.id = rid := by simpa using List.find?_some hrr
      have hcf : (x.id == r.id) = false := by
        rw [hxi, hrid]
        exact beq_eq_false_iff_ne.mpr fun hh => (hne u rid hu hr) hh.symm
      simp [hcf]

/-- The referral step appends no transaction for any user other than the
credited referrer. -/
theorem processReferralBonus_txns_ne (cfg : Config) (uid : Nat) (amt : Rat) (db : DB) (i : Nat)
    (hne : ∀ v rid, findUserById uid db = some v → v.referredBy = some rid → rid ≠ i) :
    (WebhookController.processReferralBonus cfg uid amt db).transactions.filter
        (fun t => t.userId == i) =
      db.transactions.filter (fun t => t.userId == i) := by
  rcases processReferralBonus_cases cfg uid amt db with heq | ⟨u, rid, r, hu, hr, hrr, heq⟩
  · rw [heq]
  · rw [heq]
    show (db.transactions ++ [_]).filter _ = _
    rw [List.filter_append]
    have hrid : r.id = rid := by simpa using List.find?_some hrr
    have hcf : (r.id == i) = false := by
      rw [hrid]
      exact beq_eq_false_iff_ne.mpr (hne u rid hu hr)
    simp [hcf]

/-- The wrong-currency path only appends one FAILED deposit (and possibly a
notification): user rows and transaction rows are untouched. -/
theorem recordWrongCurrency_frame (w : DepositWallet) (p : Payload) (db : DB) :
    (WebhookController.recordWrongCurrencyDeposit w p db).users = db.users ∧
    (WebhookController.recordWrongCurrencyDeposit w p db).transactions = db.transactions ∧
    ∃ d, d.status = DepStatus.FAILED ∧
      (WebhookController.recordWrongCurrencyDeposit w p db).deposits = db.deposits ++ [d] := by
  cases haw : w.assignedToUserId with
  | none =>
    have heval : WebhookController.recordWrongCurrencyDeposit w p db =
        { db with
          deposits := db.deposits ++
            [{ id := freshDepositId db, userId := WebhookController.orphanPlaceholderUserId,
               amount := p.amountParsed.getD 0, network := w.network,
               depositAddress := w.address, depositWalletId := some w.id,
               txHash := some p.txId,
               currency := if p.asset == "" then ("UNKNOWN") else p.asset,
               status := DepStatus.FAILED, confirmedAt := none, bonusAmount := 0,
               expiresAt := none }] } := by
      simp only [WebhookController.recordWrongCurrencyDeposit, haw, Option.map_none']
      rfl
    rw [heval]
    exact ⟨rfl, rfl, _, rfl, rfl⟩
  | some uid =>
    cases hu : findUserById uid db with
    | none =>
      have heval : WebhookController.recordWrongCurrencyDeposit w p db =
          { db with
            deposits := db.deposits ++
              [{ id := freshDepositId db, userId := WebhookController.orphanPlaceholderUserId,
                 amount := p.amountParsed.getD 0, network := w.network,
                 depositAddress := w.address, depositWalletId := some w.id,
                 txHash := some p.txId,
                 currency := if p.asset == "" then ("UNKNOWN") else p.asset,
                 status := DepStatus.FAILED, confirmedAt := none, bonusAmount := 0,
                 expiresAt := none }] } := by
        simp only [WebhookController.recordWrongCurrencyDeposit, haw, hu, Option.map_none']
        rfl
      rw [heval]
      exact ⟨rfl, rfl, _, rfl, rfl⟩
    | some u =>
      cases he : (u.email == "") with
      | true =>
        have heval : WebhookController.recordWrongCurrencyDeposit w p db =
            { db with
              deposits := db.deposits ++
                [{ id := freshDepositId db, userId := u.id,
                   amount := p.amountParsed.getD 0, network := w.network,
                   depositAddress := w.address, depositWalletId := some w.id,
                   txHash := some p.txId,
                   currency := if p.asset == "" then ("UNKNOWN") else p.asset,
                   status := DepStatus.FAILED, confirmedAt := none, bonusAmount := 0,
                   expiresAt := none }] } := by
          simp only [WebhookController.recordWrongCurrencyDeposit, haw, hu, he,
            Option.map_some']
          rfl
        rw [heval]
        exact ⟨rfl, rfl, _, rfl, rfl⟩
      | false =>
        have heval : WebhookController.recordWrongCurrencyDeposit w p db =
            { db with
              deposits := db.deposits ++
                [{ id := freshDepositId db, userId := u.id,
                   amount := p.amountParsed.getD 0, network := w.network,
                   depositAddress := w.address, depositWalletId := some w.id,
                   txHash := some p.txId,
                   currency := if p.asset == "" then ("UNKNOWN") else p.asset,
                   status := DepStatus.FAILED, confirmedAt := none, bonusAmount := 0,
                   expiresAt := none }],
              outbox := db.outbox ++
                [EmailMsg.wrongCurrency u.email
                  (if p.asset == "" then ("Unknown") else p.asset)
                  (p.amountParsed.getD 0) p.txId] } := by
          simp only [WebhookController.recordWrongCurrencyDeposit, haw, hu, he,
            Option.map_some']
          rfl
        rw [heval]
        exact ⟨rfl, rfl, _, rfl, rfl⟩

/-- C3: the confirmed-deposit ledger effect is all-or-nothing. For every
notification passing every check (fresh txId, known leased wallet, valid
asset, positive amount, resolved user), the processed state shows all of:
(a) the CONFIRMED DepositIntent with the bonus amount recorded, (b) the
user's balance incremented by amount+bonus and lifetime deposits by amount,
(c) the appended DEPOSIT record and (d) a DEPOSIT_BONUS record exactly when
bonus > 0 — and on every other path no user row changes, no transaction row
changes, and no CONFIRMED deposit appears; a partial application is never
observable. -/
theorem WebhookController.c3_ledger_all_or_nothing (cfg : Config) (now : Nat) (p : Payload)
    (db : DB) (hwf : ∀ x ∈ db.users, x.referredBy ≠ some x.id) :
    (∀ w uid u a b,
      hasDepositTx p.txId db = false →
      WalletPoolService.findWalletByAddress p.address db = some w →
      w.assignedToUserId = some uid →
      WebhookController.isValidDepositAsset p.asset = true →
      p.amountParsed = some a → ¬ a ≤ 0 →
      findUserById uid db = some u →
      b = (if WebhookController.hasPriorDepositBonus u.id db then 0
           else a * cfg.depositBonusPercent / 100) →
      (∃ d ∈ (WebhookController.processIncomingDeposit cfg now p db).deposits,
        d.txHash = some p.txId ∧ d.status = DepStatus.CONFIRMED ∧ d.userId = u.id ∧
        d.amount = a ∧ d.bonusAmount = b) ∧
      findUserById u.id (WebhookController.processIncomingDeposit cfg now p db) =
        some { u with balance := u.balance + (a + b), totalDeposits := u.totalDeposits + a } ∧
      (WebhookController.processIncomingDeposit cfg now p db).transactions.filter
          (fun t => t.userId == u.id) =
        db.transactions.filter (fun t => t.userId == u.id) ++
          [{ userId := u.id, type := TxType.DEPOSIT, amount := a, netAmount := a,
             status := TxStatus.CONFIRMED, reference := some p.txId,
             description := ("Deposit via ") ++ networkName w.network }] ++
          (if b > 0 then
            [{ userId := u.id, type := TxType.DEPOSIT_BONUS, amount := b, netAmount := b,
               status := TxStatus.CONFIRMED, reference := none,
               description := numStr cfg.depositBonusPercent ++
                 WebhookController.pctDepositBonusPat }]
          else [])) ∧
    ((∀ w u a b, WebhookController.webhookDecide cfg p db ≠
        WebhookController.WebhookPlan.credit w u a b) →
      (WebhookController.processIncomingDeposit cfg now p db).users = db.users ∧
      (WebhookController.processIncomingDeposit cfg now p db).transactions = db.transactions ∧
      (WebhookController.processIncomingDeposit cfg now p db).deposits.filter
          (fun d => d.status == DepStatus.CONFIRMED) =
        db.deposits.filter (fun d => d.status == DepStatus.CONFIRMED)) := by
  constructor
  · intro w uid u a b h1 h2 h3 h4 h5 h6 h7 hb
    have hplan : WebhookController.webhookDecide cfg p db =
        WebhookController.WebhookPlan.credit w u a b := by
      subst hb
      simp [WebhookController.webhookDecide, h1, h2, h3, h4, h5, h6, h7]
    have huid : u.id = uid := by simpa using List.find?_some h7
    have h7' : findUserById u.id db = some u := by rw [huid]; exact h7
    have hmem : u ∈ db.users := List.mem_of_find?_eq_some h7
    have hself : u.referredBy ≠ some u.id := hwf u hmem
    have hrun : WebhookController.processIncomingDeposit cfg now p db =
        { WebhookController.processReferralBonus cfg u.id a
            (WalletPoolService.markWalletUsed w.id now
              (WebhookController.applyDepositLedgerTx cfg now p w u a b db)) with
          outbox := (WebhookController.processReferralBonus cfg u.id a
            (WalletPoolService.markWalletUsed w.id now
              (WebhookController.applyDepositLedgerTx cfg now p w u a b db))).outbox ++
            [EmailMsg.depositConfirmed u.email a p.txId] } := by
      unfold WebhookController.processIncomingDeposit
      rw [hplan]
      rfl
    have hfind2 : findUserById u.id (WalletPoolService.markWalletUsed w.id now
        (WebhookController.applyDepositLedgerTx cfg now p w u a b db)) =
        some { u with balance := u.balance + (a + b), totalDeposits := u.totalDeposits + a } := by
      show (db.users.map (fun x =>
        if x.id == u.id then
          { x with balance := x.balance + (a + b), totalDeposits := x.totalDeposits + a }
        else x)).find? (fun x => x.id == u.id) = _
      rw [find?_map_of_key _ _ _ (fun x => by cases hc : (x.id == u.id) <;> simp [hc])]
      have hu' : db.users.find? (fun x => x.id == u.id) = some u := h7'
      rw [hu']
      simp
    have hne : ∀ v rid, findUserById u.id (WalletPoolService.markWalletUsed w.id now
        (WebhookController.applyDepositLedgerTx cfg now p w u a b db)) = some v →
        v.referredBy = some rid → rid ≠ u.id := by
      intro v rid hv hvr hcontra
      rw [hfind2] at hv
      injection hv with hv
      subst hv
      have hur : u.referredBy = some rid := hvr
      exact hself (by rw [hur, hcontra])
    refine ⟨?_, ?_, ?_⟩
    · refine ⟨{
          id := freshDepositId db, userId := u.id, amount := a, network := w.network,
          depositAddress := p.address, depositWalletId := some w.id, txHash := some p.txId,
          currency := if p.asset == "" then ("USDT") else p.asset,
          status := DepStatus.CONFIRMED, confirmedAt := some now, bonusAmount := b,
          expiresAt := none }, ?_, rfl, rfl, rfl, rfl, rfl⟩
      have hdep : (WebhookController.processIncomingDeposit cfg now p db).deposits =
          db.deposits ++
            [{ id := freshDepositId db, userId := u.id, amount := a, network := w.network,
               depositAddress := p.address, depositWalletId := some w.id,
               txHash := some p.txId,
               currency := if p.asset == "" then ("USDT") else p.asset,
               status := DepStatus.CONFIRMED, confirmedAt := some now, bonusAmount := b,
               expiresAt := none }] := by
        rw [hrun]
        show (WebhookController.processReferralBonus cfg u.id a
          (WalletPoolService.markWalletUsed w.id now
            (WebhookController.applyDepositLedgerTx cfg now p w u a b db))).deposits = _
        rw [processReferralBonus_deposits]
        rfl
      rw [hdep]
      exact List.mem_append_right _ (List.mem_singleton_self _)
    · rw [hrun]
      show findUserById u.id (WebhookController.processReferralBonus cfg u.id a
        (WalletPoolService.markWalletUsed w.id now
          (WebhookController.applyDepositLedgerTx cfg now p w u a b db))) = _
      rw [processReferralBonus_find_ne _ _ _ _ _ hne]
      exact hfind2
    · rw [hrun]
      show (WebhookController.processReferralBonus cfg u.id a
        (WalletPoolService.markWalletUsed w.id now
          (WebhookController.applyDepositLedgerTx cfg now p w u a b db))).transactions.filter
        (fun t => t.userId == u.id) = _
      rw [processReferralBonus_txns_ne _ _ _ _ _ hne]
      have hT2 : (WalletPoolService.markWalletUsed w.id now
          (WebhookController.applyDepositLedgerTx cfg now p w u a b db)).transactions =
          db.transactions ++
            [({ userId := u.id, type := TxType.DEPOSIT, amount := a, netAmount := a,
                status := TxStatus.CONFIRMED, reference := some p.txId,
                description := ("Deposit via ") ++ networkName w.network } : Txn)] ++
            (if b > 0 then
              [({ userId := u.id, type := TxType.DEPOSIT_BONUS, amount := b, netAmount := b,
                  status := TxStatus.CONFIRMED, reference := none,
                  description := numStr cfg.depositBonusPercent ++
                    WebhookController.pctDepositBonusPat } : Txn)]
            else []) := rfl
      rw [hT2]
      by_cases hbp : b > 0 <;> simp [hbp, List.filter_append]
  · intro hnc
    cases hplan : WebhookController.webhookDecide cfg p db with
    | credit w u a b => exact absurd hplan (hnc w u a b)
    | skip =>
      have hrun : WebhookController.processIncomingDeposit cfg now p db = db := by
        unfold WebhookController.processIncomingDeposit
        rw [hplan]
        rfl
      rw [hrun]
      exact ⟨rfl, rfl, rfl⟩
    | orphan w =>
      have hrun : WebhookController.processIncomingDeposit cfg now p db =
          WebhookController.recordOrphanDeposit w p db := by
        unfold WebhookController.processIncomingDeposit
        rw [hplan]
        rfl
      rw [hrun]
      refine ⟨rfl, rfl, ?_⟩
      show (db.deposits ++ [_]).filter _ = _
      rw [List.filter_append]
      simp
    | wrongCurrency w =>
      have hrun : WebhookController.processIncomingDeposit cfg now p db =
          WebhookController.recordWrongCurrencyDeposit w p db := by
        unfold WebhookController.processIncomingDeposit
        rw [hplan]
        rfl
      rw [hrun]
      obtain ⟨hU, hT, d, hdS, hD⟩ := recordWrongCurrency_frame w p db
      refine ⟨hU, hT, ?_⟩
      rw [hD, List.filter_append]
      have : (List.filter (fun d => d.status == DepStatus.CONFIRMED) [d]) = [] := by
        simp [hdS]
      rw [this, List.append_nil]

/-- C3 witness: the first $100 USDT deposit on `c1db0` produces, atomically,
the CONFIRMED intent with bonus 3, balance 103, lifetime deposits 100, the
DEPOSIT record and the DEPOSIT_BONUS record. -/
theorem WebhookController.c3_ledger_all_or_nothing_witness :
    (∃ d ∈ (WebhookController.processIncomingDeposit cfgD 10 c1p c1db0).deposits,
      d.txHash = some c1p.txId ∧ d.status = DepStatus.CONFIRMED ∧ d.userId = c1user.id ∧
      d.amount = 100 ∧ d.bonusAmount = 3) ∧
    findUserById c1user.id (WebhookController.processIncomingDeposit cfgD 10 c1p c1db0) =
      some { c1user with
             balance := c1user.balance + (100 + 3),
             totalDeposits := c1user.totalDeposits + 100 } ∧
    (WebhookController.processIncomingDeposit cfgD 10 c1p c1db0).transactions.filter
        (fun t => t.userId == c1user.id) =
      c1db0.transactions.filter (fun t => t.userId == c1user.id) ++
        [{ userId := c1user.id, type := TxType.DEPOSIT, amount := 100, netAmount := 100,
           status := TxStatus.CONFIRMED, reference := some c1p.txId,
           description := ("Deposit via ") ++ networkName c1wallet.network }] ++
        (if (3 : Rat) > 0 then
          [{ userId := c1user.id, type := TxType.DEPOSIT_BONUS, amount := 3, netAmount := 3,
             status := TxStatus.CONFIRMED, reference := none,
             description := numStr cfgD.depositBonusPercent ++
               WebhookController.pctDepositBonusPat }]
        else []) :=
  (WebhookController.c3_ledger_all_or_nothing cfgD 10 c1p c1db0 (by decide)).1
    c1wallet 1 c1user 100 3 (by decide) (by decide) (by decide) (by decide) (by decide)
    (by decide) (by decide) (by decide)

/-- The fresh-id fold only grows its accumulator. -/
theorem foldl_maxid_le (l : List DepositWallet) (acc : Nat) :
    acc ≤ l.foldl (fun m w => max m (w.id + 1)) acc := by
  induction l generalizing acc with
  | nil => exact Nat.le_refl acc
  | cons a t ih => exact Nat.le_trans (Nat.le_max_left _ _) (ih _)

/-- Every listed wallet's id is below the fresh-id fold's result. -/
theorem foldl_maxid_gt (l : List DepositWallet) (acc : Nat) :
    ∀ w ∈ l, w.id < l.foldl (fun m x => max m (x.id + 1)) acc := by
  induction l generalizing acc with
  | nil => intro w hw; cases hw
  | cons a t ih =>
    intro w hw
    rcases List.mem_cons.mp hw with rfl | hmt
    · calc w.id < w.id + 1 := Nat.lt_succ_self _
        _ ≤ max acc (w.id + 1) := Nat.le_max_right _ _
        _ ≤ t.foldl (fun m x => max m (x.id + 1)) (max acc (w.id + 1)) := foldl_maxid_le t _
    · exact ih _ w hmt

/-- `freshWalletId` is strictly above every existing wallet id. -/
theorem freshWalletId_gt (db : DB) : ∀ w ∈ db.wallets, w.id < freshWalletId db :=
  foldl_maxid_gt db.wallets 0

/-- Mapping with a predicate-preserving function preserves filter length. -/
theorem filter_length_map_pres {α : Type _} (l : List α) (p : α → Bool) (g : α → α)
    (h : ∀ x, p (g x) = p x) :
    ((l.map g).filter p).length = (l.filter p).length := by
  induction l with
  | nil => rfl
  | cons a t ih =>
    rw [List.map_cons, List.filter_cons, List.filter_cons, h a]
    cases p a <;> simp [ih]

/-- If no element of the tail carries the update key and all fail the
predicate, the keyed update leaves an empty filter. -/
theorem filter_map_assign_nil (t : List DepositWallet) (p : DepositWallet → Bool) (wid : Nat)
    (g : DepositWallet → DepositWallet)
    (hid : ∀ x ∈ t, (x.id == wid) = false)
    (hp : ∀ x ∈ t, p x = false) :
    (t.map (fun x => if x.id == wid then g x else x)).filter p = [] := by
  induction t with
  | nil => rfl
  | cons a t ih =>
    rw [List.map_cons, if_neg (by simp [hid a (List.mem_cons_self a t)]),
      List.filter_cons_of_neg (by simp [hp a (List.mem_cons_self a t)])]
    exact ih (fun x hx => hid x (List.mem_cons_of_mem a hx))
      (fun x hx => hp x (List.mem_cons_of_mem a hx))

/-- After an id-keyed lease write over a list with distinct ids in which no
wallet currently holds an active lease for the pair, at most one wallet can
hold one. -/
theorem assign_filter_le (l : List DepositWallet) (wid uid now expires : Nat) (net : Network)
    (hall : ∀ x ∈ l, WalletPoolService.isActiveLease uid net now x = false)
    (hnd : (l.map (fun x => x.id)).Nodup) :
    ((l.map (fun x =>
      if x.id == wid then
        { x with
          assignedToUserId := some uid, assignedAt := some now,
          expiresAt := some expires, isAvailable := false }
      else x)).filter (WalletPoolService.isActiveLease uid net now)).length ≤ 1 := by
  induction l with
  | nil => simp
  | cons a t ih =>
    rw [List.map_cons, List.nodup_cons] at hnd
    rw [List.map_cons]
    cases ha : (a.id == wid) with
    | true =>
      rw [if_pos (by simp [ha])]
      have hid : ∀ x ∈ t, (x.id == wid) = false := by
        intro x hx
        have haw : a.id = wid := by simpa using ha
        apply beq_eq_false_iff_ne.mpr
        intro hxe
        exact hnd.1 (by rw [haw, ← hxe]; exact List.mem_map_of_mem _ hx)
      have htail := filter_map_assign_nil t (WalletPoolService.isActiveLease uid net now) wid
        (fun x => { x with
          assignedToUserId := some uid, assignedAt := some now,
          expiresAt := some expires, isAvailable := false })
        hid (fun x hx => hall x (List.mem_cons_of_mem a hx))
      cases hpa : WalletPoolService.isActiveLease uid net now
          ({ a with
             assignedToUserId := some uid, assignedAt := some now,
             expiresAt := some expires, isAvailable := false }) with
      | true =>
        rw [List.filter_cons_of_pos hpa, htail]
        simp
      | false =>
        rw [List.filter_cons_of_neg (by simp [hpa]), htail]
        simp
    | false =>
      rw [if_neg (by simp [ha]),
        List.filter_cons_of_neg (by simp [hall a (List.mem_cons_self a t)])]
      exact ih (fun x hx => hall x (List.mem_cons_of_mem a hx)) hnd.2

/-- `ensureWebhook` rewrites the pool by a pointwise map that can only set a
missing webhook id: ids, lease predicates and ordering keys are untouched. -/
theorem ensureWebhook_wallets (env : WalletPoolService.ChainEnv) (w : DepositWallet) (db : DB) :
    ∃ g : DepositWallet → DepositWallet,
      (WalletPoolService.ensureWebhook env w db).wallets = db.wallets.map g ∧
      (∀ x, (g x).id = x.id) ∧
      (∀ uid net now x, WalletPoolService.isActiveLease uid net now (g x) =
        WalletPoolService.isActiveLease uid net now x) := by
  unfold WalletPoolService.ensureWebhook
  cases hw : w.webhookId with
  | some v =>
    exact ⟨id, (List.map_id _).symm, fun x => rfl, fun _ _ _ _ => rfl⟩
  | none =>
    cases hwf : env.webhookFor w.address with
    | none => exact ⟨id, (List.map_id _).symm, fun x => rfl, fun _ _ _ _ => rfl⟩
    | some nid =>
      refine ⟨fun x => if x.id == w.id then { x with webhookId := some nid } else x,
        rfl, ?_, ?_⟩
      · intro x; cases hc : (x.id == w.id) <;> simp [hc]
      · intro uid net now x
        cases hc : (x.id == w.id)
        · simp [hc]
        · simp only [hc, if_true]
          rfl

/-- A successful `generateNewWallet` appends exactly one fresh, unleased
wallet. -/
theorem generateNewWallet_ok_shape (env : WalletPoolService.ChainEnv) (net : Network)
    (db : DB) (w : DepositWallet) (db1 : DB)
    (h : WalletPoolService.generateNewWallet env net db = Except.ok (w, db1)) :
    db1.wallets = db.wallets ++ [w] ∧ w.id = freshWalletId db ∧
    w.assignedToUserId = none := by
  unfold WalletPoolService.generateNewWallet at h
  by_cases hm : WalletPoolService.addrMatches net
      (env.rederive net (env.gen net (WalletPoolService.nextDerivationIndex net db)).2)
      (env.gen net (WalletPoolService.nextDerivationIndex net db)).1 = true
  · by_cases he : env.encryptionConfigured = true
    · simp only [hm, he, Bool.not_true, Bool.false_eq_true, if_false,
        Except.ok.injEq, Prod.mk.injEq] at h
      obtain ⟨hw, hdb1⟩ := h
      subst hw
      subst hdb1
      exact ⟨rfl, rfl, rfl⟩
    · rw [Bool.not_eq_true] at he
      simp [hm, he] at h
  · rw [Bool.not_eq_true] at hm
    simp [hm] at h

/-- C2 (amended): sequential exclusivity — one `getOrAssignWallet` call,
executed without interleaving, preserves "at most one active lease per
(user, network)": returning an existing lease changes no lease field, and
both the pool-assignment and the derive-new paths lease exactly one wallet,
keyed by a wallet id that is unique in the pool. (The call is read followed
by an unconditional id-keyed write, not an atomic conditional update, so the
guarantee does not survive concurrent interleaving — see the
counterexample.) -/
theorem WalletPoolService.c2_sequential_lease_exclusive (env : WalletPoolService.ChainEnv)
    (userId : Nat) (net : Network) (now : Nat) (db : DB)
    (hnd : (db.wallets.map (fun x => x.id)).Nodup)
    (hinv : (db.wallets.filter (WalletPoolService.isActiveLease userId net now)).length ≤ 1)
    (res : WalletPoolService.AssignResult) (db2 : DB)
    (hok : WalletPoolService.getOrAssignWallet env userId net now db = Except.ok (res, db2)) :
    (db2.wallets.filter (WalletPoolService.isActiveLease userId net now)).length ≤ 1 := by
  unfold WalletPoolService.getOrAssignWallet at hok
  cases hex : WalletPoolService.findExistingAssignment userId net now db with
  | some w =>
    simp only [hex, Except.ok.injEq, Prod.mk.injEq] at hok
    obtain ⟨-, hdb2⟩ := hok
    subst hdb2
    obtain ⟨g, hwal, hgid, hgpred⟩ := ensureWebhook_wallets env w db
    rw [hwal, filter_length_map_pres _ _ _ (hgpred userId net now)]
    exact hinv
  | none =>
    have hall : ∀ x ∈ db.wallets, WalletPoolService.isActiveLease userId net now x = false := by
      intro x hx
      have hfn : ∀ a ∈ db.wallets, ¬ WalletPoolService.isActiveLease userId net now a = true :=
        List.find?_eq_none.mp hex
      simpa using hfn x hx
    cases hav : WalletPoolService.findAvailableWallet net db with
    | some w =>
      simp only [hex, hav, Except.ok.injEq, Prod.mk.injEq] at hok
      obtain ⟨-, hdb2⟩ := hok
      subst hdb2
      obtain ⟨g, hwal, hgid, hgpred⟩ := ensureWebhook_wallets env w db
      unfold WalletPoolService.assignWalletById updateWallet
      rw [show (WalletPoolService.ensureWebhook env w db).wallets = db.wallets.map g from hwal]
      apply assign_filter_le
      · intro y hy
        obtain ⟨x, hx, rfl⟩ := List.mem_map.mp hy
        rw [hgpred]
        exact hall x hx
      · rw [List.map_map]
        have : ((fun x : DepositWallet => x.id) ∘ g) = (fun x : DepositWallet => x.id) := by
          funext x
          exact hgid x
        rw [this]
        exact hnd
    | none =>
      cases hgen : WalletPoolService.generateNewWallet env net db with
      | error e =>
        simp only [hex, hav, hgen] at hok
        exact absurd hok (by simp)
      | ok pr =>
        obtain ⟨w, db1⟩ := pr
        simp only [hex, hav, hgen, Except.ok.injEq, Prod.mk.injEq] at hok
        obtain ⟨-, hdb2⟩ := hok
        subst hdb2
        obtain ⟨hw1, hwid, hwassign⟩ := generateNewWallet_ok_shape env net db w db1 hgen
        unfold WalletPoolService.assignWalletById updateWallet
        rw [show db1.wallets = db.wallets ++ [w] from hw1]
        apply assign_filter_le
        · intro x hx
          rcases List.mem_append.mp hx with hxm | hxw
          · exact hall x hxm
          · rw [List.mem_singleton.mp hxw]
            simp [WalletPoolService.isActiveLease, hwassign]
        · rw [List.map_append]
          rw [List.nodup_append]
          refine ⟨hnd, List.nodup_singleton _, ?_⟩
          intro i hi
          simp only [List.map_cons, List.map_nil, List.mem_singleton]
          intro hiw
          obtain ⟨x, hx, rfl⟩ := List.mem_map.mp hi
          have := freshWalletId_gt db x hx
          rw [hiw, hwid] at this
          exact Nat.lt_irrefl _ this

/-- C2 witness: one sequential call on the two-available-wallet pool `c2db0`
leases exactly one wallet to user 1. -/
theorem WalletPoolService.c2_sequential_lease_exclusive_witness :
    ((WalletPoolService.assignWalletById 1 1 1000
        (1000 + WalletPoolService.WALLET_ASSIGNMENT_DURATION) c2db0).wallets.filter
      (WalletPoolService.isActiveLease 1 Network.BEP20 1000)).length ≤ 1 :=
  WalletPoolService.c2_sequential_lease_exclusive c6env 1 Network.BEP20 1000 c2db0
    (by decide) (by decide)
    { address := ("0xB1"), expiresAt := 1000 + WalletPoolService.WALLET_ASSIGNMENT_DURATION,
      isNew := false }
    (WalletPoolService.assignWalletById 1 1 1000
      (1000 + WalletPoolService.WALLET_ASSIGNMENT_DURATION) c2db0)
    rfl
